import Mathlib

/-!
Verification development for the rust-cardano light-node core: the CBOR-style
binary value model and decode contract, the block/header data model, and the
epoch synchronization engine of the wallet-cli blockchain command.

The wallet_crypto cbor module is not part of the sources here; its value tree,
error type and combinators are modelled from the specification of the binary
value model (self-describing trees of unsigned integers, byte strings,
definite and indefinite arrays and tagged values, with typed decode errors).
-/

namespace cbor

/-- Modelled from the spec: the generic tagged value tree of the binary value
model (unsigned integers, text, byte strings, definite and indefinite arrays,
tagged sub-values); the wallet_crypto cbor module itself is not in src. -/
inductive Value : Type where
  | U64 (n : Nat)
  | Text (s : String)
  | Bytes (bs : List Nat)
  | Array (xs : List Value)
  | IArray (xs : List Value)
  | Tag (t : Nat) (v : Value)

/-- Modelled from the spec: the decode error taxonomy — type mismatches,
InvalidSize for fixed-length byte fields, InvalidSumtype for unknown
discriminants, UnparsedValues for trailing record fields, a missing-element
error for exhausted field arrays, and Embed wrapping an error with a
human-readable description of the context being decoded. -/
inductive Err : Type where
  | ExpectedU64
  | ExpectedU32
  | ExpectedU16
  | ExpectedU8
  | ExpectedText
  | ExpectedBytes
  | ExpectedArray
  | ExpectedIArray
  | InvalidSize (n : Nat)
  | InvalidSumtype (n : Nat)
  | UnparsedValues
  | IndexNotFound
  | Embed (descr : String) (e : Err)
deriving DecidableEq, Repr

/-- The innermost (root-cause) error, stripping the Embed context wrappers. -/
def Err.root : Err → Err
  | .Embed _ e => e.root
  | e => e

/-- The chain of context descriptions attached to an error, outermost first. -/
def Err.contexts : Err → List String
  | .Embed s e => s :: e.contexts
  | _ => []

/-- Decode computation result: ok, a typed decode error, or a Rust panic
(used where the source indexes unconditionally and can die on a slice
out-of-bounds rather than returning a decode error). -/
inductive DR (α : Type) : Type where
  | ok : α → DR α
  | err : Err → DR α
  | panic : DR α

def DR.bind {α β : Type} : DR α → (α → DR β) → DR β
  | .ok a, f => f a
  | .err e, _ => .err e
  | .panic, _ => .panic

instance : Monad DR where
  pure := DR.ok
  bind := DR.bind

/-- ExtendedResult::embed — wrap a decode error with a context description;
ok results and panics pass through unchanged. -/
def DR.embed {α : Type} (r : DR α) (s : String) : DR α :=
  match r with
  | .err e => .err (.Embed s e)
  | r => r

def DR.isOk {α : Type} : DR α → Bool
  | .ok _ => true
  | _ => false

def DR.isPanic {α : Type} : DR α → Bool
  | .panic => true
  | _ => false

def DR.errOf {α : Type} : DR α → Option Err
  | .err e => some e
  | _ => none

/-- The root cause of a decode failure, if the result is an error. -/
def DR.rootOf {α : Type} (r : DR α) : Option Err :=
  r.errOf.map Err.root

/-- Value::array — expect a definite array. Modelled from the spec. -/
def Value.array : Value → DR (List Value)
  | .Array xs => .ok xs
  | _ => .err .ExpectedArray

/-- Value::iarray — expect an indefinite array. Modelled from the spec. -/
def Value.iarray : Value → DR (List Value)
  | .IArray xs => .ok xs
  | _ => .err .ExpectedIArray

/-- Value::bytes — expect a byte string. Modelled from the spec. -/
def Value.bytes : Value → DR (List Nat)
  | .Bytes bs => .ok bs
  | _ => .err .ExpectedBytes

/-- CborValue for u64. Modelled from the spec. -/
def decodeU64 : Value → DR Nat
  | .U64 n => if n < 2 ^ 64 then .ok n else .err .ExpectedU64
  | _ => .err .ExpectedU64

/-- CborValue for u32. Modelled from the spec. -/
def decodeU32 : Value → DR Nat
  | .U64 n => if n < 2 ^ 32 then .ok n else .err .ExpectedU32
  | _ => .err .ExpectedU32

/-- CborValue for u16. Modelled from the spec. -/
def decodeU16 : Value → DR Nat
  | .U64 n => if n < 2 ^ 16 then .ok n else .err .ExpectedU16
  | _ => .err .ExpectedU16

/-- CborValue for u8. Modelled from the spec. -/
def decodeU8 : Value → DR Nat
  | .U64 n => if n < 2 ^ 8 then .ok n else .err .ExpectedU8
  | _ => .err .ExpectedU8

/-- CborValue for String. Modelled from the spec. -/
def decodeText : Value → DR String
  | .Text s => .ok s
  | _ => .err .ExpectedText

/-- CborValue for cbor::Value itself: the identity decode. Modelled from the
spec (opaque payload slots are kept as raw values). -/
def decodeValue : Value → DR Value := fun v => .ok v

/-- cbor::array_decode_elem(array, 0): remove the front element of the field
array and decode it, returning the rest of the array and the decoded value;
an exhausted array is a decode error. Modelled from the spec (a missing field
fails with a decode error identifying the field's context, which the callers
attach via embed). -/
def array_decode_elem {α : Type} (dec : Value → DR α) (array : List Value) :
    DR (List Value × α) :=
  match array with
  | [] => .err .IndexNotFound
  | x :: xs => do
      let a ← dec x
      DR.ok (xs, a)

/-- Decode every element of a list in order (CborValue for sequence types).
Modelled from the spec. -/
def mapDR {α : Type} (f : Value → DR α) : List Value → DR (List α)
  | [] => .ok []
  | x :: xs => do
      let a ← f x
      let as ← mapDR f xs
      DR.ok (a :: as)

/-- CborValue for Vec of a decodable element type: a definite array of
elements. Modelled from the spec. -/
def decodeVec {α : Type} (dec : Value → DR α) (v : Value) : DR (List α) :=
  v.array >>= mapDR dec

/-- CborValue for LinkedList of a decodable element type: an indefinite array
of elements (the get-headers response test vector frames the header sequence
as an indefinite array). Modelled from the spec. -/
def decodeLinkedList {α : Type} (dec : Value → DR α) (v : Value) : DR (List α) :=
  v.iarray >>= mapDR dec

end cbor

open cbor

/-! ## Block/header data model (blockchain::types, protocol::block, blockchain::genesis) -/

def HASH_SIZE : Nat := 32

/-- blockchain::types::HeaderHash — fixed 32-byte digest (bytes as a list). -/
structure HeaderHash where
  data : List Nat
deriving DecidableEq, Repr, Inhabited

def HeaderHash.bytes (h : HeaderHash) : List Nat := h.data

def HeaderHash.from_bytes (bytes : List Nat) : HeaderHash := ⟨bytes⟩

/-- HeaderHash::from_slice — None unless the slice has exactly HASH_SIZE bytes. -/
def HeaderHash.from_slice (bytes : List Nat) : Option HeaderHash :=
  if bytes.length ≠ HASH_SIZE then none
  else some (HeaderHash.from_bytes bytes)

def HeaderHash.encode (h : HeaderHash) : Value := .Bytes h.data

def HeaderHash.decode (value : Value) : DR HeaderHash :=
  (value.bytes >>= fun bytes =>
    match HeaderHash.from_slice bytes with
    | some digest => DR.ok digest
    | none => DR.err (.InvalidSize HASH_SIZE)).embed "while decoding Hash"

/-- Modelled from the spec: tx::Hash (wallet-crypto) is outside src; a fixed
32-byte digest whose decode fails with InvalidSize on a length mismatch,
exactly as the spec states for fixed-length byte-string hash fields. -/
structure TxHash where
  data : List Nat
deriving DecidableEq, Repr

def TxHash.decode (value : Value) : DR TxHash :=
  (value.bytes >>= fun bytes =>
    if bytes.length = HASH_SIZE then DR.ok ⟨bytes⟩
    else DR.err (.InvalidSize HASH_SIZE)).embed "while decoding Hash"

namespace hdwallet

/-- Modelled from the spec: hdwallet::XPub is outside src; an extended public
key carried as a fixed-length (64-byte) byte string. -/
structure XPub where
  data : List Nat
deriving DecidableEq, Repr

def XPub.decode (value : Value) : DR XPub :=
  value.bytes >>= fun bytes =>
    if bytes.length = 64 then DR.ok ⟨bytes⟩ else DR.err (.InvalidSize 64)

/-- Modelled from the spec: hdwallet::Signature is outside src; signatures are
fixed-length (64-byte) byte strings. -/
structure Signature where
  data : List Nat
deriving DecidableEq, Repr

def Signature.decode (value : Value) : DR Signature :=
  value.bytes >>= fun bytes =>
    if bytes.length = 64 then DR.ok ⟨bytes⟩ else DR.err (.InvalidSize 64)

end hdwallet

/-- Modelled from the spec: config::ProtocolMagic is outside src; a u32 magic. -/
def ProtocolMagic.decode : Value → DR Nat := decodeU32

/-- blockchain::types::Version (identical copy in protocol::block). -/
structure Version where
  major : Nat
  minor : Nat
  revision : Nat
deriving DecidableEq, Repr

def Version.new (major minor revision : Nat) : Version := ⟨major, minor, revision⟩

def Version.encode (v : Version) : Value :=
  .Array [.U64 v.major, .U64 v.minor, .U64 v.revision]

def Version.decode (value : Value) : DR Version :=
  (value.array >>= fun array => do
    let (array, major) ← (array_decode_elem decodeU32 array).embed "major"
    let (array, minor) ← (array_decode_elem decodeU32 array).embed "minor"
    let (array, revision) ← (array_decode_elem decodeU32 array).embed "revision"
    if !array.isEmpty then DR.err .UnparsedValues
    else DR.ok (Version.new major minor revision)).embed "while decoding Version"

/-- blockchain::types::BlockVersion (u16, u16, u8). -/
structure BlockVersion where
  major : Nat
  minor : Nat
  revision : Nat
deriving DecidableEq, Repr

def BlockVersion.new (major minor revision : Nat) : BlockVersion := ⟨major, minor, revision⟩

def BlockVersion.encode (v : BlockVersion) : Value :=
  .Array [.U64 v.major, .U64 v.minor, .U64 v.revision]

def BlockVersion.decode (value : Value) : DR BlockVersion :=
  (value.array >>= fun array => do
    let (array, major) ← (array_decode_elem decodeU16 array).embed "major"
    let (array, minor) ← (array_decode_elem decodeU16 array).embed "minor"
    let (array, revision) ← (array_decode_elem decodeU8 array).embed "revision"
    if !array.isEmpty then DR.err .UnparsedValues
    else DR.ok (BlockVersion.new major minor revision)).embed "While decoding a BlockVersion"

/-- blockchain::types::SoftwareVersion. -/
structure SoftwareVersion where
  application_name : String
  application_version : Nat
deriving DecidableEq, Repr

def SoftwareVersion.new (name : String) (version : Nat) : SoftwareVersion := ⟨name, version⟩

def SoftwareVersion.encode (v : SoftwareVersion) : Value :=
  .Array [.Text v.application_name, .U64 v.application_version]

def SoftwareVersion.decode (value : Value) : DR SoftwareVersion :=
  (value.array >>= fun array => do
    let (array, name) ← (array_decode_elem decodeText array).embed "name"
    let (array, version) ← (array_decode_elem decodeU32 array).embed "version"
    if !array.isEmpty then DR.err .UnparsedValues
    else DR.ok (SoftwareVersion.new name version)).embed "While decoding a SoftwareVersion"

/-- blockchain::types::BlockHeaderAttributes — a raw value kept as-is. -/
structure BlockHeaderAttributes where
  val : Value

def BlockHeaderAttributes.encode (a : BlockHeaderAttributes) : Value := a.val

def BlockHeaderAttributes.decode (value : Value) : DR BlockHeaderAttributes :=
  DR.ok ⟨value⟩

/-- blockchain::types::HeaderExtraData (identical copy in protocol::block,
which differs only in the final context string). encode is unimplemented in
the source. -/
structure HeaderExtraData where
  block_version : BlockVersion
  software_version : SoftwareVersion
  attributes : BlockHeaderAttributes
  extra_data_proof : TxHash

def HeaderExtraData.new (bv : BlockVersion) (sv : SoftwareVersion)
    (a : BlockHeaderAttributes) (p : TxHash) : HeaderExtraData := ⟨bv, sv, a, p⟩

def HeaderExtraData.decode (value : Value) : DR HeaderExtraData :=
  (value.array >>= fun array => do
    let (array, block_version) ← (array_decode_elem BlockVersion.decode array).embed "block version"
    let (array, software_version) ← (array_decode_elem SoftwareVersion.decode array).embed "software version"
    let (array, attributes) ← (array_decode_elem BlockHeaderAttributes.decode array).embed "attributes"
    let (array, extra_data_proof) ← (array_decode_elem TxHash.decode array).embed "extra data proof"
    if !array.isEmpty then DR.err .UnparsedValues
    else DR.ok (HeaderExtraData.new block_version software_version attributes extra_data_proof)).embed "While decoding a HeaderExtraData"

/-- blockchain::types::SscProof (identical copy in protocol::block). -/
inductive SscProof where
  | Commitments (commhash vss : TxHash)
  | Openings (commhash vss : TxHash)
  | Shares (commhash vss : TxHash)
  | Certificate (cert : TxHash)
deriving DecidableEq, Repr

def SscProof.decode (value : Value) : DR SscProof :=
  (value.array >>= fun array => do
    let (array, code) ← (array_decode_elem decodeU64 array).embed "enumeration code"
    if code = 0 then do
      let (array, commhash) ← array_decode_elem TxHash.decode array
      let (array, vss) ← array_decode_elem TxHash.decode array
      if !array.isEmpty then DR.err .UnparsedValues
      else DR.ok (SscProof.Commitments commhash vss)
    else if code = 1 then do
      let (array, commhash) ← array_decode_elem TxHash.decode array
      let (array, vss) ← array_decode_elem TxHash.decode array
      if !array.isEmpty then DR.err .UnparsedValues
      else DR.ok (SscProof.Openings commhash vss)
    else if code = 2 then do
      let (array, commhash) ← array_decode_elem TxHash.decode array
      let (array, vss) ← array_decode_elem TxHash.decode array
      if !array.isEmpty then DR.err .UnparsedValues
      else DR.ok (SscProof.Shares commhash vss)
    else if code = 3 then do
      let (array, cert) ← array_decode_elem TxHash.decode array
      if !array.isEmpty then DR.err .UnparsedValues
      else DR.ok (SscProof.Certificate cert)
    else DR.err (.InvalidSumtype code)).embed "While decoding block::Block"

/-- Modelled from the spec: tx::TxProof is outside src; §3 describes the
transaction component of the body proof as a transaction-merkle-proof hash. -/
structure TxProof where
  proof : TxHash
deriving DecidableEq, Repr

def TxProof.decode (value : Value) : DR TxProof :=
  TxHash.decode value >>= fun h => DR.ok ⟨h⟩

/-- protocol::block::BodyProof. encode is unimplemented in the source. -/
structure BodyProof where
  tx : TxProof
  mpc : SscProof
  proxy_sk : TxHash
  update : TxHash

def BodyProof.new (tx : TxProof) (mpc : SscProof) (proxy_sk : TxHash)
    (update : TxHash) : BodyProof := ⟨tx, mpc, proxy_sk, update⟩

def BodyProof.decode (value : Value) : DR BodyProof :=
  (value.array >>= fun array => do
    let (array, tx) ← (array_decode_elem TxProof.decode array).embed "tx"
    let (array, mpc) ← (array_decode_elem SscProof.decode array).embed "mpc"
    let (array, proxy_sk) ← (array_decode_elem TxHash.decode array).embed "proxy_sk"
    let (array, update) ← (array_decode_elem TxHash.decode array).embed "update"
    if !array.isEmpty then DR.err .UnparsedValues
    else DR.ok (BodyProof.new tx mpc proxy_sk update)).embed "While decoding BodyProof"

namespace main

/-- Modelled from the spec: tx::TxAux (a signed transaction) is outside src;
the spec treats transactions as opaque payloads here, kept as raw values. -/
structure TxAux where
  raw : Value

def TxAux.decode (value : Value) : DR TxAux := DR.ok ⟨value⟩

/-- protocol::block::main::TxPayload — ordered sequence of signed transactions. -/
structure TxPayload where
  txaux : List TxAux

def TxPayload.new (l : List TxAux) : TxPayload := ⟨l⟩

def TxPayload.decode (value : Value) : DR TxPayload :=
  (value.iarray >>= fun array =>
    mapDR TxAux.decode array >>= fun l =>
      DR.ok (TxPayload.new l)).embed "While decoding TxPayload"

/-- protocol::block::main::SlotId — ordered pair (epoch, slotid), both u32. -/
structure SlotId where
  epoch : Nat
  slotid : Nat
deriving DecidableEq, Repr

def SlotId.decode (value : Value) : DR SlotId :=
  (value.array >>= fun array => do
    let (array, epoch) ← (array_decode_elem decodeU32 array).embed "epoch"
    let (array, slotid) ← (array_decode_elem decodeU32 array).embed "slotid"
    if !array.isEmpty then DR.err .UnparsedValues
    else DR.ok (SlotId.mk epoch slotid)).embed "While decoding Slotid"

/-- protocol::block::main::BlockSignature — direct signature, light delegation
proof, or heavy delegation proof. Note: the source rejects an unknown
discriminant with UnparsedValues, not InvalidSumtype. -/
inductive BlockSignature where
  | Signature (sig : hdwallet.Signature)
  | ProxyLight (vals : List Value)
  | ProxyHeavy (vals : List Value)

def BlockSignature.decode (value : Value) : DR BlockSignature :=
  (value.array >>= fun array => do
    let (array, code) ← (array_decode_elem decodeU64 array).embed "enumeration code"
    if code = 0 then do
      let (array, sig) ← (array_decode_elem hdwallet.Signature.decode array).embed ""
      if !array.isEmpty then DR.err .UnparsedValues
      else DR.ok (BlockSignature.Signature sig)
    else if code = 1 then DR.ok (BlockSignature.ProxyLight array)
    else if code = 2 then DR.ok (BlockSignature.ProxyHeavy array)
    else DR.err .UnparsedValues).embed "While decoding main::BlockSignature"

/-- protocol::block::main::Consensus. -/
structure Consensus where
  slot_id : SlotId
  leader_key : hdwallet.XPub
  chain_difficulty : Nat
  block_signature : BlockSignature

/-- main::Consensus::decode — decodes the chain-difficulty field as a vector
of u64 and takes element 0 unconditionally (a Rust index panic when the
vector is empty); note there is no trailing-emptiness check on the record. -/
def Consensus.decode (value : Value) : DR Consensus :=
  (value.array >>= fun array => do
    let (array, slotid) ← (array_decode_elem SlotId.decode array).embed "slotid code"
    let (array, leaderkey) ← (array_decode_elem hdwallet.XPub.decode array).embed "leader key"
    let (array, chain_difficulty) ← (array_decode_elem (decodeVec decodeU64) array).embed "chain difficulty"
    let (_, block_signature) ← (array_decode_elem BlockSignature.decode array).embed "block signature"
    match chain_difficulty with
    | [] => DR.panic
    | d :: _ => DR.ok (Consensus.mk slotid leaderkey d block_signature)).embed "While decoding main::Consensus"

end main

/-- protocol::block::MainBlockHeader. -/
structure MainBlockHeader where
  protocol_magic : Nat
  previous_header : HeaderHash
  body_proof : BodyProof
  consensus : main.Consensus
  extra_data : HeaderExtraData

def MainBlockHeader.new (pm : Nat) (pb : HeaderHash) (bp : BodyProof)
    (c : main.Consensus) (ed : HeaderExtraData) : MainBlockHeader := ⟨pm, pb, bp, c, ed⟩

/-- MainBlockHeader::encode is unimplemented in the source (a Rust panic). -/
def MainBlockHeader.encode : MainBlockHeader → Option Value := fun _ => none

def MainBlockHeader.decode (value : Value) : DR MainBlockHeader :=
  (value.array >>= fun array => do
    let (array, p_magic) ← (array_decode_elem ProtocolMagic.decode array).embed "protocol magic"
    let (array, prv_header) ← (array_decode_elem HeaderHash.decode array).embed "Previous Header Hash"
    let (array, body_proof) ← (array_decode_elem BodyProof.decode array).embed "body proof"
    let (array, consensus) ← (array_decode_elem main.Consensus.decode array).embed "consensus"
    let (array, extra_data) ← (array_decode_elem HeaderExtraData.decode array).embed "extra_data"
    if !array.isEmpty then DR.err .UnparsedValues
    else DR.ok (MainBlockHeader.new p_magic prv_header body_proof consensus extra_data)).embed "While decoding a MainBlockHeader"

namespace main

/-- protocol::block::main::Body — transaction payload plus opaque
shared-secret, delegation and update payload slots. -/
structure Body where
  tx : TxPayload
  scc : Value
  delegation : Value
  update : Value

def Body.new (tx : TxPayload) (scc dlg upd : Value) : Body := ⟨tx, scc, dlg, upd⟩

def Body.decode (value : Value) : DR Body :=
  (value.array >>= fun array => do
    let (array, tx) ← (array_decode_elem TxPayload.decode array).embed "tx"
    let (array, scc) ← (array_decode_elem decodeValue array).embed "scc"
    let (array, dlg) ← (array_decode_elem decodeValue array).embed "dlg"
    let (array, upd) ← (array_decode_elem decodeValue array).embed "update"
    if !array.isEmpty then DR.err .UnparsedValues
    else DR.ok (Body.new tx scc dlg upd)).embed "While decoding Body"

/-- protocol::block::main::Block — header + body + opaque extra payload. -/
structure Block where
  header : MainBlockHeader
  body : Body
  extra : Value

def Block.new (h : MainBlockHeader) (b : Body) (e : Value) : Block := ⟨h, b, e⟩

def Block.decode (value : Value) : DR Block :=
  (value.array >>= fun array => do
    let (array, header) ← (array_decode_elem MainBlockHeader.decode array).embed "header"
    let (array, body) ← (array_decode_elem Body.decode array).embed "body"
    let (array, extra) ← (array_decode_elem decodeValue array).embed "extra"
    if !array.isEmpty then DR.err .UnparsedValues
    else DR.ok (Block.new header body extra)).embed "While decoding block::Block"

end main

namespace genesis

/-- blockchain::genesis::BodyProof — a single hash. -/
structure BodyProof where
  proof : TxHash
deriving DecidableEq, Repr

def BodyProof.decode (value : Value) : DR BodyProof :=
  (TxHash.decode value >>= fun hash => DR.ok (BodyProof.mk hash)).embed "While decoding BodyProof"

/-- blockchain::genesis::Body — the slot-leader list, kept as raw values. -/
structure Body where
  slot_leaders : List Value

def Body.decode (value : Value) : DR Body :=
  (value.iarray >>= fun array => DR.ok (Body.mk array)).embed "While decoding genesis::Body"

/-- blockchain::genesis::Consensus. -/
structure Consensus where
  epoch : Nat
  chain_difficulty : Nat
deriving DecidableEq, Repr

/-- genesis::Consensus::decode — decodes the chain-difficulty field as a
vector of u32 and takes element 0 unconditionally (a Rust index panic when
the vector is empty); unlike main::Consensus it does reject trailing values. -/
def Consensus.decode (value : Value) : DR Consensus :=
  (value.array >>= fun array => do
    let (array, epoch) ← (array_decode_elem decodeU32 array).embed "epoch"
    let (array, chain_difficulty) ← (array_decode_elem (decodeVec decodeU32) array).embed "chain_difficulty"
    if !array.isEmpty then DR.err .UnparsedValues
    else
      match chain_difficulty with
      | [] => DR.panic
      | d :: _ => DR.ok (Consensus.mk epoch d)).embed "While decoding genesis::Consensus"

/-- blockchain::genesis::BlockHeader. -/
structure BlockHeader where
  protocol_magic : Nat
  previous_header : HeaderHash
  body_proof : BodyProof
  consensus : Consensus
  extra_data : BlockHeaderAttributes

def BlockHeader.new (pm : Nat) (pb : HeaderHash) (bp : BodyProof)
    (c : Consensus) (ed : BlockHeaderAttributes) : BlockHeader := ⟨pm, pb, bp, c, ed⟩

/-- genesis::BlockHeader::encode is unimplemented in the source (a Rust panic). -/
def BlockHeader.encode : BlockHeader → Option Value := fun _ => none

def BlockHeader.decode (value : Value) : DR BlockHeader :=
  (value.array >>= fun array => do
    let (array, p_magic) ← (array_decode_elem ProtocolMagic.decode array).embed "protocol magic"
    let (array, prv_header) ← (array_decode_elem HeaderHash.decode array).embed "Previous Header Hash"
    let (array, body_proof) ← (array_decode_elem BodyProof.decode array).embed "body proof"
    let (array, consensus) ← (array_decode_elem Consensus.decode array).embed "consensus"
    let (array, extra_data) ← (array_decode_elem BlockHeaderAttributes.decode array).embed "extra_data"
    if !array.isEmpty then DR.err .UnparsedValues
    else DR.ok (BlockHeader.new p_magic prv_header body_proof consensus extra_data)).embed "While decoding a genesis::BlockHeader"

/-- blockchain::genesis::Block. -/
structure Block where
  header : BlockHeader
  body : Body
  extra : Value

def Block.decode (value : Value) : DR Block :=
  (value.array >>= fun array => do
    let (array, header) ← (array_decode_elem BlockHeader.decode array).embed "header"
    let (array, body) ← (array_decode_elem Body.decode array).embed "body"
    let (array, extra) ← (array_decode_elem decodeValue array).embed "extra"
    if !array.isEmpty then DR.err .UnparsedValues
    else DR.ok (Block.mk header body extra)).embed "While decoding genesis::Block"

end genesis

namespace normal

/-- Modelled from the spec: the blockchain crate's normal module is not under
src; per the spec the Main header layout coincides with the protocol crate's
main layout, so the normal header is the MainBlockHeader record. -/
abbrev BlockHeader := MainBlockHeader

/-- Modelled from the spec: the normal (Main) block is header + body + opaque
extra payload, as in the protocol crate's main module. -/
abbrev Block := main.Block

end normal

namespace blockchain

/-- blockchain::block::BlockHeader — Genesis or Main variant. -/
inductive BlockHeader where
  | GenesisBlockHeader (h : genesis.BlockHeader)
  | MainBlockHeader (h : normal.BlockHeader)

def BlockHeader.get_previous_header : BlockHeader → HeaderHash
  | .GenesisBlockHeader blo => blo.previous_header
  | .MainBlockHeader blo => blo.previous_header

/-- blockchain::block::BlockHeader::encode — frames the inner header encoding
under discriminant 0 (genesis) or 1 (main); both inner header encoders are
unimplemented in the source (Rust panics), modelled as none. -/
def BlockHeader.encode : BlockHeader → Option Value
  | .GenesisBlockHeader mbh =>
      (genesis.BlockHeader.encode mbh).map (fun v => Value.Array [.U64 0, v])
  | .MainBlockHeader mbh =>
      (MainBlockHeader.encode mbh).map (fun v => Value.Array [.U64 1, v])

def BlockHeader.decode (value : Value) : DR BlockHeader :=
  value.array >>= fun array => do
    let (array, code) ← (array_decode_elem decodeU64 array).embed "enumeration code"
    if code = 0 then do
      let (array, mbh) ← array_decode_elem genesis.BlockHeader.decode array
      if !array.isEmpty then DR.err .UnparsedValues
      else DR.ok (BlockHeader.GenesisBlockHeader mbh)
    else if code = 1 then do
      let (array, mbh) ← array_decode_elem MainBlockHeader.decode array
      if !array.isEmpty then DR.err .UnparsedValues
      else DR.ok (BlockHeader.MainBlockHeader mbh)
    else DR.err (.InvalidSumtype code)

/-- blockchain::block::Block — Genesis or Main variant. -/
inductive Block where
  | GenesisBlock (b : genesis.Block)
  | MainBlock (b : normal.Block)

def Block.decode (value : Value) : DR Block :=
  (value.array >>= fun array => do
    let (array, code) ← (array_decode_elem decodeU64 array).embed "enumeration code"
    if code = 0 then do
      let (array, blk) ← array_decode_elem genesis.Block.decode array
      if !array.isEmpty then DR.err .UnparsedValues
      else DR.ok (Block.GenesisBlock blk)
    else if code = 1 then do
      let (array, blk) ← array_decode_elem main.Block.decode array
      if !array.isEmpty then DR.err .UnparsedValues
      else DR.ok (Block.MainBlock blk)
    else DR.err (.InvalidSumtype code)).embed "While decoding block::Block"

end blockchain

namespace packet

/-- protocol::packet::MainBlockHeader — the wire-layer header with the proof,
consensus and extra-data slots kept as raw value vectors (the Todo type). -/
structure MainBlockHeader where
  protocol_magic : Nat
  previous_block : HeaderHash
  body_proof : List Value
  consensus : List Value
  extra_data : List Value

def MainBlockHeader.new (pm : Nat) (pb : HeaderHash)
    (bp c ed : List Value) : MainBlockHeader := ⟨pm, pb, bp, c, ed⟩

def MainBlockHeader.decode (value : Value) : DR MainBlockHeader :=
  (value.array >>= fun array => do
    let (array, p_magic) ← (array_decode_elem decodeU32 array).embed "protocol magic"
    let (array, prv_block) ← (array_decode_elem HeaderHash.decode array).embed "Previous Block Hash"
    let (array, body_proof) ← (array_decode_elem (decodeVec decodeValue) array).embed "body proof"
    let (array, consensus) ← (array_decode_elem (decodeVec decodeValue) array).embed "consensus"
    let (array, extra_data) ← (array_decode_elem (decodeVec decodeValue) array).embed "extra_data"
    if !array.isEmpty then DR.err .UnparsedValues
    else DR.ok (MainBlockHeader.new p_magic prv_block body_proof consensus extra_data)).embed "While decoding a MainBlockHeader"

/-- protocol::packet::BlockHeader — Main variant only. -/
inductive BlockHeader where
  | MainBlockHeader (h : MainBlockHeader)

def BlockHeader.decode (value : Value) : DR BlockHeader :=
  value.array >>= fun array => do
    let (array, code) ← (array_decode_elem decodeU64 array).embed "enumeration code"
    if code = 1 then do
      let (array, mbh) ← array_decode_elem MainBlockHeader.decode array
      if !array.isEmpty then DR.err .UnparsedValues
      else DR.ok (BlockHeader.MainBlockHeader mbh)
    else DR.err (.InvalidSumtype code)

/-- protocol::packet::BlockHeaderResponse — discriminant 0 carries an ordered
sequence of headers. -/
inductive BlockHeaderResponse where
  | Ok (l : List BlockHeader)

def BlockHeaderResponse.decode (value : Value) : DR BlockHeaderResponse :=
  value.array >>= fun array => do
    let (array, code) ← (array_decode_elem decodeU64 array).embed "enumeration code"
    if code = 0 then do
      let (array, l) ← array_decode_elem (decodeLinkedList BlockHeader.decode) array
      if !array.isEmpty then DR.err .UnparsedValues
      else DR.ok (BlockHeaderResponse.Ok l)
    else DR.err (.InvalidSumtype code)

end packet

/-! ## Chain synchronization engine (wallet-cli command::blockchain)

The engine works through accessors the header types expose (previous_header,
slot_id, compute_hash); compute_hash and the blockchain crate's get_slotid
live outside src (the hashing collaborator and the normal module), so a batch
header is modelled by the record of those observations, per §4.2 of the spec. -/

/-- A header as observed by the sync engine: its slot epoch and slot id, its
previous-header hash, and its own content hash (compute_hash). The same
record stands for a decoded block's header in the block loop. -/
structure Hdr where
  epoch : Nat
  slotid : Nat
  prev : HeaderHash
  hash : HeaderHash
deriving DecidableEq, Repr, Inhabited

/-- The connected network collaborator, abstracted as its two blocking
request/response calls: get-headers over a hash range and get-blocks over a
hash range (both already decoded). -/
structure Net where
  getHeaders : HeaderHash → HeaderHash → List Hdr
  getBlocks : HeaderHash → HeaderHash → List Hdr

/-- The distinct fatal aborts (Rust panics) download_epoch can hit. -/
inductive PanicReason where
  | emptyHeaders
  | indexOOB
  | prevMismatchHeader
  | blockEpochMismatch
  | prevMismatchBlock
deriving DecidableEq, Repr

/-- State threaded through the per-block loop: the pack writer (list of
appended block hashes, in order), the last accepted block hash, and the next
expected slot id. -/
structure BState where
  writer : List HeaderHash
  previous_headerhash : HeaderHash
  expected_slotid : Nat
deriving DecidableEq, Repr

/-- The body of the per-block for-loop of download_epoch (one pass per raw
block, in order): verify the slot epoch, verify hash chaining, update the
expected slot id (warn-and-resynchronize on mismatch, never abort), append
the block to the pack writer, and advance the previous-header cursor. -/
def processBlocks (epoch_id : Nat) (st : BState) : List Hdr → Except (PanicReason × BState) BState
  | [] => .ok st
  | b :: bs =>
    if b.epoch ≠ epoch_id then .error (.blockEpochMismatch, st)
    else if st.previous_headerhash ≠ b.prev then .error (.prevMismatchBlock, st)
    else
      let expected' := if b.slotid = st.expected_slotid then st.expected_slotid + 1 else b.slotid + 1
      processBlocks epoch_id ⟨st.writer ++ [b.hash], b.hash, expected'⟩ bs

/-- The front scan of the header batch, as a count-down loop: while
end >= start and the header at start has epoch > epoch_id, advance start.
The fuel argument is exactly endIdx + 1 - start, so running out of fuel is
the end >= start test failing. -/
def frontScanGo (hdrs : List Hdr) (epoch_id : Nat) : Nat → Nat → Nat
  | 0, start => start
  | fuel + 1, start =>
    if (hdrs.getD start default).epoch > epoch_id then frontScanGo hdrs epoch_id fuel (start + 1)
    else start

/-- Lines 94-96: `while end >= start && block_headers[start].epoch > epoch_id
{ start += 1 }`, started at start = 0. -/
def frontScan (hdrs : List Hdr) (epoch_id : Nat) (endIdx : Nat) (start : Nat) : Nat :=
  frontScanGo hdrs epoch_id (endIdx + 1 - start) start

/-- The back scan of the header batch, as a count-down loop: while
end > start and the header at end has epoch < epoch_id, retreat end. The
fuel argument is exactly endIdx - start. -/
def backScanGo (hdrs : List Hdr) (epoch_id : Nat) : Nat → Nat → Nat
  | 0, endIdx => endIdx
  | fuel + 1, endIdx =>
    if (hdrs.getD endIdx default).epoch < epoch_id then backScanGo hdrs epoch_id fuel (endIdx - 1)
    else endIdx

/-- Lines 97-99: `while end > start && block_headers[end].epoch < epoch_id
{ end -= 1 }`. -/
def backScan (hdrs : List Hdr) (epoch_id : Nat) (start : Nat) (endIdx : Nat) : Nat :=
  backScanGo hdrs epoch_id (endIdx - start) endIdx

/-- Lines 81-104 of download_epoch: compute the kept window [start, end] of a
header batch and record the epoch boundary (the hash of the header just
before start) when start > 0. Returns (start, end, found_epoch_boundary). -/
def scanBatch (hdrs : List Hdr) (epoch_id : Nat) (found0 : Option HeaderHash) :
    Nat × Nat × Option HeaderHash :=
  let endIdx := hdrs.length - 1
  let start := frontScan hdrs epoch_id endIdx 0
  let endI := backScan hdrs epoch_id start endIdx
  let found := if start > 0 then some (hdrs.getD (start - 1) default).hash else found0
  (start, endI, found)

/-- Loop state of download_epoch. -/
structure EpochState where
  start_hash : HeaderHash
  found_epoch_boundary : Option HeaderHash
  writer : List HeaderHash
  previous_headerhash : HeaderHash
  expected_slotid : Nat
deriving DecidableEq, Repr

/-- Outcome of download_epoch: a normal return carrying the boundary hash
(epoch finished and pack committed), a fatal abort (Rust panic), or fuel
exhaustion standing for a run still looping. The writer contents are carried
along for observation. -/
inductive DownloadResult where
  | ok (boundary : HeaderHash) (writer : List HeaderHash)
  | panic (reason : PanicReason) (writer : List HeaderHash)
  | outOfFuel (writer : List HeaderHash)
deriving DecidableEq, Repr

/-- The loop of download_epoch (lines 74-177). An empty header batch dies on
block_headers.len() - 1 / block_headers[0] (emptyHeaders); a batch whose
first header is of an earlier epoch is fast-skipped; after the scans,
block_headers[start] with start = len dies (indexOOB); the earliest kept
header must chain onto previous_headerhash; then every fetched block is
checked and appended, and the loop either returns the found boundary or
continues from the last accepted hash. -/
def download_epoch_loop (net : Net) (epoch_id : Nat) (latest_hash : HeaderHash) :
    Nat → EpochState → DownloadResult
  | 0, st => .outOfFuel st.writer
  | fuel + 1, st =>
    let block_headers := net.getHeaders st.start_hash latest_hash
    if block_headers.isEmpty then .panic .emptyHeaders st.writer
    else if (block_headers.getD 0 default).epoch < epoch_id then
      download_epoch_loop net epoch_id latest_hash fuel
        { st with start_hash := (block_headers.getD 0 default).hash }
    else
      let sb := scanBatch block_headers epoch_id st.found_epoch_boundary
      if block_headers.length ≤ sb.1 then .panic .indexOOB st.writer
      else
        let latest_block := block_headers.getD sb.1 default
        let first_block := block_headers.getD sb.2.1 default
        if first_block.prev ≠ st.previous_headerhash then
          .panic .prevMismatchHeader st.writer
        else
          let blocks_raw := net.getBlocks first_block.hash latest_block.hash
          match processBlocks epoch_id ⟨st.writer, st.previous_headerhash, st.expected_slotid⟩ blocks_raw with
          | .error (r, bst) => .panic r bst.writer
          | .ok bst =>
            match sb.2.2 with
            | some b => .ok b bst.writer
            | none =>
              download_epoch_loop net epoch_id latest_hash fuel
                ⟨bst.previous_headerhash, none, bst.writer, bst.previous_headerhash, bst.expected_slotid⟩

/-- download_epoch(storage, net, epoch_id, x_start_hash, latest_hash):
initial state has previous_headerhash = start hash, expected_slotid = 0, an
empty fresh pack writer and no boundary found. -/
def download_epoch (net : Net) (fuel : Nat) (epoch_id : Nat)
    (x_start_hash latest_hash : HeaderHash) : DownloadResult :=
  download_epoch_loop net epoch_id latest_hash fuel
    ⟨x_start_hash, none, [], x_start_hash, 0⟩

/-- The epoch-download loop of net_sync_fast (lines 211-217), as the list of
(epoch, start hash) pairs passed to download_epoch; dl abstracts
download_epoch's returned boundary hash. The fuel is exactly
tip_epoch - download_epoch_id, the number of remaining loop iterations. -/
def sync_calls_go (dl : Nat → HeaderHash → HeaderHash) :
    Nat → Nat → HeaderHash → List (Nat × HeaderHash)
  | 0, _, _ => []
  | fuel + 1, download_epoch_id, download_start_hash =>
    (download_epoch_id, download_start_hash) ::
      sync_calls_go dl fuel (download_epoch_id + 1) (dl download_epoch_id download_start_hash)

/-- Lines 211-217: `while download_epoch_id < network_slotid.epoch`, feeding
each call's returned boundary hash into the next call's start hash. -/
def sync_calls (dl : Nat → HeaderHash → HeaderHash) (download_epoch_id : Nat)
    (download_start_hash : HeaderHash) (tip_epoch : Nat) : List (Nat × HeaderHash) :=
  sync_calls_go dl (tip_epoch - download_epoch_id) download_epoch_id download_start_hash

/-- The calls are chained: consecutive entries increment the epoch by one and
feed the previous call's result hash forward. -/
def chainedCalls (dl : Nat → HeaderHash → HeaderHash) : List (Nat × HeaderHash) → Prop
  | (e1, h1) :: (e2, h2) :: rest =>
      e2 = e1 + 1 ∧ h2 = dl e1 h1 ∧ chainedCalls dl ((e2, h2) :: rest)
  | _ => True

/-! ## Concrete instances used by counterexamples and witnesses -/

/-- The synthetic header batch of the spec's epoch-boundary-scan example:
slot epochs [5, 5, 6, 6, 6], chained hashes. -/
def exampleBatch : List Hdr :=
  [⟨5, 0, ⟨[0]⟩, ⟨[1]⟩⟩, ⟨5, 1, ⟨[1]⟩, ⟨[2]⟩⟩, ⟨6, 0, ⟨[2]⟩, ⟨[3]⟩⟩,
   ⟨6, 1, ⟨[3]⟩, ⟨[4]⟩⟩, ⟨6, 2, ⟨[4]⟩, ⟨[5]⟩⟩]

/-- A peer whose header response is a single header of epoch 6 (one past a
target epoch of 5). -/
def netAllLater : Net := ⟨fun _ _ => [⟨6, 0, ⟨[0]⟩, ⟨[1]⟩⟩], fun _ _ => []⟩

/-- A peer that returns an empty header batch. -/
def netEmpty : Net := ⟨fun _ _ => [], fun _ _ => []⟩

/-- A peer whose single returned header has previous-header hash [7], which
does not chain onto a previous_headerhash of [0]. -/
def netBadPrev : Net := ⟨fun _ _ => [⟨5, 0, ⟨[7]⟩, ⟨[1]⟩⟩], fun _ _ => []⟩

/-- A concrete genesis block header. -/
def gHeader0 : genesis.BlockHeader :=
  ⟨0, ⟨List.replicate 32 0⟩, ⟨⟨List.replicate 32 0⟩⟩, ⟨0, 0⟩, ⟨.U64 0⟩⟩

/-! ## Basic reduction lemmas -/

@[simp] theorem cbor.DR.ok_bind {α β : Type} (a : α) (f : α → DR β) :
    (DR.ok a >>= f) = f a := rfl

@[simp] theorem cbor.DR.err_bind {α β : Type} (e : Err) (f : α → DR β) :
    ((DR.err e : DR α) >>= f) = DR.err e := rfl

@[simp] theorem cbor.DR.panic_bind {α β : Type} (f : α → DR β) :
    ((DR.panic : DR α) >>= f) = DR.panic := rfl

@[simp] theorem cbor.DR.embed_ok {α : Type} (a : α) (s : String) :
    (DR.ok a).embed s = DR.ok a := rfl

@[simp] theorem cbor.DR.embed_err {α : Type} (e : Err) (s : String) :
    ((DR.err e : DR α)).embed s = DR.err (.Embed s e) := rfl

@[simp] theorem cbor.DR.embed_panic {α : Type} (s : String) :
    ((DR.panic : DR α)).embed s = DR.panic := rfl

@[simp] theorem cbor.array_decode_elem_nil {α : Type} (dec : Value → DR α) :
    array_decode_elem dec [] = .err .IndexNotFound := rfl

@[simp] theorem cbor.array_decode_elem_cons {α : Type} (dec : Value → DR α)
    (x : Value) (xs : List Value) :
    array_decode_elem dec (x :: xs) = (dec x >>= fun a => DR.ok (xs, a)) := rfl

@[simp] theorem cbor.mapDR_nil {α : Type} (f : Value → DR α) : mapDR f [] = .ok [] := rfl

@[simp] theorem cbor.mapDR_cons {α : Type} (f : Value → DR α) (x : Value) (xs : List Value) :
    mapDR f (x :: xs) = (f x >>= fun a => mapDR f xs >>= fun as => DR.ok (a :: as)) := rfl

theorem decodeU64_U64 (d : Nat) (hd : d < 2 ^ 64) : decodeU64 (Value.U64 d) = DR.ok d := by
  show (if d < 2 ^ 64 then DR.ok d else DR.err Err.ExpectedU64) = DR.ok d
  exact if_pos hd

theorem decodeU32_U64 (d : Nat) (hd : d < 2 ^ 32) : decodeU32 (Value.U64 d) = DR.ok d := by
  show (if d < 2 ^ 32 then DR.ok d else DR.err Err.ExpectedU32) = DR.ok d
  exact if_pos hd

theorem decodeU16_U64 (d : Nat) (hd : d < 2 ^ 16) : decodeU16 (Value.U64 d) = DR.ok d := by
  show (if d < 2 ^ 16 then DR.ok d else DR.err Err.ExpectedU16) = DR.ok d
  exact if_pos hd

theorem decodeU8_U64 (d : Nat) (hd : d < 2 ^ 8) : decodeU8 (Value.U64 d) = DR.ok d := by
  show (if d < 2 ^ 8 then DR.ok d else DR.err Err.ExpectedU8) = DR.ok d
  exact if_pos hd

theorem mapDR_decodeU64_map (ds : List Nat) (h : ∀ d ∈ ds, d < 2 ^ 64) :
    mapDR decodeU64 (ds.map Value.U64) = .ok ds := by
  induction ds with
  | nil => rfl
  | cons d ds ih =>
    have hd := decodeU64_U64 d (h d (List.mem_cons_self d ds))
    have ht : ∀ x ∈ ds, x < 2 ^ 64 := fun x hx => h x (List.mem_cons_of_mem d hx)
    simp [hd, ih ht]

theorem mapDR_decodeU32_map (ds : List Nat) (h : ∀ d ∈ ds, d < 2 ^ 32) :
    mapDR decodeU32 (ds.map Value.U64) = .ok ds := by
  induction ds with
  | nil => rfl
  | cons d ds ih =>
    have hd := decodeU32_U64 d (h d (List.mem_cons_self d ds))
    have ht : ∀ x ∈ ds, x < 2 ^ 32 := fun x hx => h x (List.mem_cons_of_mem d hx)
    simp [hd, ih ht]

/-! ## Lemmas about the block-processing loop -/

theorem processBlocks_append (epoch_id : Nat) (st : BState) (l1 l2 : List Hdr) :
    processBlocks epoch_id st (l1 ++ l2) =
      match processBlocks epoch_id st l1 with
      | .ok st' => processBlocks epoch_id st' l2
      | .error e => .error e := by
  induction l1 generalizing st with
  | nil => simp [processBlocks]
  | cons b bs ih =>
    by_cases h1 : b.epoch ≠ epoch_id
    · simp [processBlocks, h1]
    · by_cases h2 : st.previous_headerhash ≠ b.prev
      · simp [processBlocks, h1, h2]
      · simp [processBlocks, h1, h2, ih]

theorem processBlocks_ok_writer (epoch_id : Nat) (st st' : BState) (l : List Hdr)
    (h : processBlocks epoch_id st l = .ok st') :
    st'.writer = st.writer ++ l.map Hdr.hash := by
  induction l generalizing st with
  | nil =>
    simp [processBlocks] at h
    simp [← h]
  | cons b bs ih =>
    by_cases h1 : b.epoch ≠ epoch_id
    · simp [processBlocks, h1] at h
    · by_cases h2 : st.previous_headerhash ≠ b.prev
      · simp [processBlocks, h1, h2] at h
      · rw [processBlocks, if_neg h1, if_neg h2] at h
        have := ih ⟨st.writer ++ [b.hash], b.hash,
          if b.slotid = st.expected_slotid then st.expected_slotid + 1 else b.slotid + 1⟩ h
        simpa using this

/-! ## Lemmas about the batch scans -/

theorem frontScanGo_spec (hdrs : List Hdr) (e : Nat) :
    ∀ (fuel s : Nat),
      s ≤ frontScanGo hdrs e fuel s ∧
      frontScanGo hdrs e fuel s ≤ s + fuel ∧
      (∀ j, s ≤ j → j < frontScanGo hdrs e fuel s → e < (hdrs.getD j default).epoch) ∧
      (frontScanGo hdrs e fuel s < s + fuel → (hdrs.getD (frontScanGo hdrs e fuel s) default).epoch ≤ e) := by
  intro fuel
  induction fuel with
  | zero =>
    intro s
    refine ⟨Nat.le_refl s, Nat.le_refl s, ?_, ?_⟩
    · intro j h1 h2
      simp only [frontScanGo] at h2
      omega
    · intro hlt
      simp only [frontScanGo] at hlt
      omega
  | succ n ih =>
    intro s
    by_cases hcond : e < (hdrs.getD s default).epoch
    · have hr : frontScanGo hdrs e (n + 1) s = frontScanGo hdrs e n (s + 1) := by
        rw [frontScanGo, if_pos hcond]
      obtain ⟨ih1, ih2, ih3, ih4⟩ := ih (s + 1)
      rw [hr]
      refine ⟨by omega, by omega, ?_, fun hlt => ih4 (by omega)⟩
      intro j hj1 hj2
      rcases Nat.eq_or_lt_of_le hj1 with hj | hj
      · exact hj ▸ hcond
      · exact ih3 j hj hj2
    · have hr : frontScanGo hdrs e (n + 1) s = s := by
        rw [frontScanGo, if_neg hcond]
      rw [hr]
      exact ⟨Nat.le_refl s, by omega, fun j h1 h2 => by omega, fun _ => Nat.le_of_not_lt hcond⟩

theorem backScanGo_spec (hdrs : List Hdr) (e : Nat) :
    ∀ (fuel endIdx : Nat), fuel ≤ endIdx →
      endIdx - fuel ≤ backScanGo hdrs e fuel endIdx ∧
      backScanGo hdrs e fuel endIdx ≤ endIdx ∧
      (∀ j, backScanGo hdrs e fuel endIdx < j → j ≤ endIdx → (hdrs.getD j default).epoch < e) ∧
      (endIdx - fuel < backScanGo hdrs e fuel endIdx →
        e ≤ (hdrs.getD (backScanGo hdrs e fuel endIdx) default).epoch) := by
  intro fuel
  induction fuel with
  | zero =>
    intro endIdx _
    simp only [backScanGo]
    exact ⟨by omega, Nat.le_refl endIdx, fun j h1 h2 => by omega, fun hlt => by omega⟩
  | succ n ih =>
    intro endIdx hle
    by_cases hcond : (hdrs.getD endIdx default).epoch < e
    · have hr : backScanGo hdrs e (n + 1) endIdx = backScanGo hdrs e n (endIdx - 1) := by
        rw [backScanGo, if_pos hcond]
      obtain ⟨ih1, ih2, ih3, ih4⟩ := ih (endIdx - 1) (by omega)
      rw [hr]
      refine ⟨by omega, by omega, ?_, fun hlt => ih4 (by omega)⟩
      intro j hj1 hj2
      rcases Nat.eq_or_lt_of_le hj2 with hj | hj
      · exact hj ▸ hcond
      · exact ih3 j hj1 (by omega)
    · have hr : backScanGo hdrs e (n + 1) endIdx = endIdx := by
        rw [backScanGo, if_neg hcond]
      rw [hr]
      exact ⟨by omega, Nat.le_refl endIdx, fun j h1 h2 => by omega,
        fun _ => Nat.le_of_not_lt hcond⟩

/-! ## Lemmas about the net_sync_fast loop -/

theorem sync_calls_go_map_fst (dl : Nat → HeaderHash → HeaderHash) :
    ∀ (fuel id : Nat) (h : HeaderHash),
      (sync_calls_go dl fuel id h).map Prod.fst = List.range' id fuel := by
  intro fuel
  induction fuel with
  | zero => intro id h; rfl
  | succ n ih =>
    intro id h
    simp only [sync_calls_go, List.map_cons, ih]
    rfl

theorem sync_calls_go_length (dl : Nat → HeaderHash → HeaderHash) :
    ∀ (fuel id : Nat) (h : HeaderHash), (sync_calls_go dl fuel id h).length = fuel := by
  intro fuel
  induction fuel with
  | zero => intro id h; rfl
  | succ n ih => intro id h; simp [sync_calls_go, ih]

theorem sync_calls_go_chained (dl : Nat → HeaderHash → HeaderHash) :
    ∀ (fuel id : Nat) (h : HeaderHash), chainedCalls dl (sync_calls_go dl fuel id h) := by
  intro fuel
  induction fuel with
  | zero => intro id h; trivial
  | succ n ih =>
    intro id h
    cases n with
    | zero => trivial
    | succ k =>
      have h2 := ih (id + 1) (dl id h)
      rw [sync_calls_go, sync_calls_go]
      rw [sync_calls_go] at h2
      exact ⟨rfl, rfl, h2⟩

/-! ## Claim theorems -/

/-- C7: HeaderHash::from_slice returns Some exactly for byte slices of length
32, the resulting hash's bytes equal the input, and decoding a byte string
whose length is not 32 into a HeaderHash fails with InvalidSize(32) under the
hash-decoding context. -/
theorem C7_headerhash_fixed_size :
    (∀ bytes : List Nat, (HeaderHash.from_slice bytes).isSome ↔ bytes.length = 32) ∧
    (∀ (bytes : List Nat) (h : HeaderHash), HeaderHash.from_slice bytes = some h → h.data = bytes) ∧
    (∀ bytes : List Nat, bytes.length ≠ 32 →
      HeaderHash.decode (Value.Bytes bytes) =
        DR.err (.Embed "while decoding Hash" (.InvalidSize 32))) := by
  refine ⟨?_, ?_, ?_⟩
  · intro bytes
    by_cases h : bytes.length = 32
    · simp [HeaderHash.from_slice, HASH_SIZE, h]
    · simp [HeaderHash.from_slice, HASH_SIZE, h]
  · intro bytes h hsome
    by_cases hl : bytes.length = 32
    · rw [HeaderHash.from_slice, if_neg (by simp [HASH_SIZE, hl])] at hsome
      cases hsome
      rfl
    · rw [HeaderHash.from_slice, if_pos (by simp [HASH_SIZE, hl])] at hsome
      cases hsome
  · intro bytes hl
    simp [HeaderHash.decode, Value.bytes, HeaderHash.from_slice, HASH_SIZE, hl, DR.embed]

/-- C7 witness: the theorem instantiated at a 32-byte slice and at the
3-byte string [1, 2, 3]. -/
theorem C7_headerhash_fixed_size_witness :
    (HeaderHash.from_slice (List.replicate 32 0)).isSome ∧
    HeaderHash.decode (Value.Bytes [1, 2, 3]) =
      DR.err (.Embed "while decoding Hash" (.InvalidSize 32)) :=
  ⟨(C7_headerhash_fixed_size.1 (List.replicate 32 0)).mpr (by decide),
   C7_headerhash_fixed_size.2.2 [1, 2, 3] (by decide)⟩

/-- C4: in download_epoch's block loop, a block whose slotid equals
expected_slotid advances expected_slotid by one; a block whose slotid differs
does not abort, is still appended, and resynchronizes expected_slotid to
slotid + 1; for chained blocks with slotids [0, 1, 3] of the target epoch,
the slotid-3 block leaves expected_slotid at 4 with all three appended. -/
theorem C4_slot_contiguity :
    (∀ (epoch_id : Nat) (st : BState) (b : Hdr) (bs : List Hdr),
      b.epoch = epoch_id → st.previous_headerhash = b.prev →
      b.slotid = st.expected_slotid →
      processBlocks epoch_id st (b :: bs) =
        processBlocks epoch_id ⟨st.writer ++ [b.hash], b.hash, st.expected_slotid + 1⟩ bs) ∧
    (∀ (epoch_id : Nat) (st : BState) (b : Hdr) (bs : List Hdr),
      b.epoch = epoch_id → st.previous_headerhash = b.prev →
      b.slotid ≠ st.expected_slotid →
      processBlocks epoch_id st (b :: bs) =
        processBlocks epoch_id ⟨st.writer ++ [b.hash], b.hash, b.slotid + 1⟩ bs) ∧
    processBlocks 5 ⟨[], ⟨[0]⟩, 0⟩
        [⟨5, 0, ⟨[0]⟩, ⟨[1]⟩⟩, ⟨5, 1, ⟨[1]⟩, ⟨[2]⟩⟩, ⟨5, 3, ⟨[2]⟩, ⟨[3]⟩⟩] =
      .ok ⟨[⟨[1]⟩, ⟨[2]⟩, ⟨[3]⟩], ⟨[3]⟩, 4⟩ := by
  refine ⟨?_, ?_, rfl⟩
  · intro epoch_id st b bs h1 h2 h3
    simp only [processBlocks]
    simp [h1, h2, h3]
  · intro epoch_id st b bs h1 h2 h3
    simp only [processBlocks]
    simp [h1, h2, h3]

/-- C4 witness: a block with slotid 3 arriving when 2 was expected is
appended and resets the expectation to 4 without aborting. -/
theorem C4_slot_contiguity_witness :
    processBlocks 5 ⟨[], ⟨[2]⟩, 2⟩ [⟨5, 3, ⟨[2]⟩, ⟨[3]⟩⟩] =
      processBlocks 5 ⟨[⟨[3]⟩], ⟨[3]⟩, 4⟩ [] :=
  C4_slot_contiguity.2.1 5 ⟨[], ⟨[2]⟩, 2⟩ ⟨5, 3, ⟨[2]⟩, ⟨[3]⟩⟩ [] rfl rfl (by decide)

/-- C3 counterexample: with the latest locally-known epoch and the tip epoch
both 3, the loop of net_sync_fast makes no download_epoch call at all — in
particular none for the tip's epoch — refuting the up-to-and-including
claim. -/
theorem C3_counterexample_tip_epoch_excluded :
    sync_calls (fun _ h => h) 3 ⟨[0]⟩ 3 = [] ∧
    ¬ ∃ p ∈ sync_calls (fun _ h => h) 3 ⟨[0]⟩ 3, p.1 = 3 := by
  refine ⟨rfl, ?_⟩
  rintro ⟨p, hp, -⟩
  simp [sync_calls, sync_calls_go] at hp

/-- C3 amended: net_sync_fast invokes download_epoch once for every epoch
from the latest locally-known epoch up to but excluding the tip header's
epoch (tip - latest calls; no call is made for the tip's epoch itself), the
epoch counter incrementing by one per call and each call's returned boundary
hash being fed as the next call's start hash; when any call is made, the
first uses the latest known epoch and start hash. -/
theorem C3_sync_epoch_sequence (dl : Nat → HeaderHash → HeaderHash)
    (id tip : Nat) (h : HeaderHash) :
    (sync_calls dl id h tip).map Prod.fst = List.range' id (tip - id) ∧
    (sync_calls dl id h tip).length = tip - id ∧
    chainedCalls dl (sync_calls dl id h tip) ∧
    (id < tip → (sync_calls dl id h tip).head? = some (id, h)) := by
  refine ⟨sync_calls_go_map_fst dl (tip - id) id h, sync_calls_go_length dl (tip - id) id h,
    sync_calls_go_chained dl (tip - id) id h, ?_⟩
  intro hlt
  have hne : tip - id ≠ 0 := by omega
  rcases Nat.exists_eq_succ_of_ne_zero hne with ⟨n, hn⟩
  simp [sync_calls, hn, sync_calls_go]

/-- C3 witness: three epochs strictly below the tip epoch 5 are downloaded
starting at epoch 2, and the first call uses the provided start hash. -/
theorem C3_sync_epoch_sequence_witness :
    (sync_calls (fun e _ => ⟨[e]⟩) 2 ⟨[0]⟩ 5).map Prod.fst = List.range' 2 3 ∧
    (sync_calls (fun e _ => ⟨[e]⟩) 2 ⟨[0]⟩ 5).head? = some (2, ⟨[0]⟩) :=
  ⟨(C3_sync_epoch_sequence (fun e _ => ⟨[e]⟩) 2 5 ⟨[0]⟩).1,
   (C3_sync_epoch_sequence (fun e _ => ⟨[e]⟩) 2 5 ⟨[0]⟩).2.2.2 (by decide)⟩

/-- C10: main::Consensus::decode and genesis::Consensus::decode read the
chain-difficulty field as a vector of unsigned integers and take its element
0 unconditionally: with a non-empty difficulty array the decoded
chain_difficulty is the array's first element, and with an empty difficulty
array the decode panics (Rust index out of bounds) instead of returning a
decode error. -/
theorem C10_chain_difficulty_head :
    (∀ (slotV keyV sigV : Value) (s : main.SlotId) (k : hdwallet.XPub)
        (g : main.BlockSignature) (d : Nat) (ds : List Nat),
      main.SlotId.decode slotV = .ok s →
      hdwallet.XPub.decode keyV = .ok k →
      main.BlockSignature.decode sigV = .ok g →
      (∀ x ∈ d :: ds, x < 2 ^ 64) →
      main.Consensus.decode (.Array [slotV, keyV, .Array ((d :: ds).map Value.U64), sigV]) =
        .ok (main.Consensus.mk s k d g)) ∧
    (∀ (slotV keyV sigV : Value) (s : main.SlotId) (k : hdwallet.XPub)
        (g : main.BlockSignature),
      main.SlotId.decode slotV = .ok s →
      hdwallet.XPub.decode keyV = .ok k →
      main.BlockSignature.decode sigV = .ok g →
      main.Consensus.decode (.Array [slotV, keyV, .Array [], sigV]) = DR.panic) ∧
    (∀ (e d : Nat) (ds : List Nat), e < 2 ^ 32 → (∀ x ∈ d :: ds, x < 2 ^ 32) →
      genesis.Consensus.decode (.Array [.U64 e, .Array ((d :: ds).map Value.U64)]) =
        .ok (genesis.Consensus.mk e d)) ∧
    (∀ e : Nat, e < 2 ^ 32 →
      genesis.Consensus.decode (.Array [.U64 e, .Array []]) = DR.panic) := by
  refine ⟨?_, ?_, ?_, ?_⟩
  · intro slotV keyV sigV s k g d ds h1 h2 h3 h4
    have hd := decodeU64_U64 d (h4 d (List.mem_cons_self d ds))
    have htl := mapDR_decodeU64_map ds (fun x hx => h4 x (List.mem_cons_of_mem d hx))
    simp [main.Consensus.decode, Value.array, h1, h2, h3, decodeVec, hd, htl]
  · intro slotV keyV sigV s k g h1 h2 h3
    simp [main.Consensus.decode, Value.array, h1, h2, h3, decodeVec]
  · intro e d ds he hds
    have h1 := decodeU32_U64 e he
    have hd := decodeU32_U64 d (hds d (List.mem_cons_self d ds))
    have htl := mapDR_decodeU32_map ds (fun x hx => hds x (List.mem_cons_of_mem d hx))
    simp [genesis.Consensus.decode, Value.array, h1, hd, htl, decodeVec]
  · intro e he
    have h1 := decodeU32_U64 e he
    simp [genesis.Consensus.decode, Value.array, h1, decodeVec]

/-- C10 witness: a consensus record with an empty difficulty vector panics;
one with difficulty vector [7, 8] decodes with chain_difficulty 7. -/
theorem C10_chain_difficulty_head_witness :
    main.Consensus.decode (.Array [.Array [.U64 0, .U64 0], .Bytes (List.replicate 64 0),
        .Array [], .Array [.U64 1]]) = DR.panic ∧
    genesis.Consensus.decode (.Array [.U64 2, .Array [.U64 7, .U64 8]]) =
      .ok (genesis.Consensus.mk 2 7) :=
  ⟨C10_chain_difficulty_head.2.1 (.Array [.U64 0, .U64 0]) (.Bytes (List.replicate 64 0))
      (.Array [.U64 1]) ⟨0, 0⟩ ⟨List.replicate 64 0⟩ (.ProxyLight []) rfl rfl rfl,
   C10_chain_difficulty_head.2.2.1 2 7 [8] (by norm_num) (by decide)⟩

@[simp] theorem cbor.DR.rootOf_err {α : Type} (e : Err) :
    (DR.err e : DR α).rootOf = some e.root := rfl

@[simp] theorem cbor.Err.root_Embed (s : String) (e : Err) :
    (Err.Embed s e).root = e.root := rfl

@[simp] theorem cbor.Err.root_InvalidSumtype (n : Nat) :
    (Err.InvalidSumtype n).root = .InvalidSumtype n := rfl

@[simp] theorem cbor.Err.root_UnparsedValues :
    Err.UnparsedValues.root = .UnparsedValues := rfl

theorem processBlocks_append_ok (epoch_id : Nat) (st st' : BState)
    (l1 l2 : List Hdr) (h : processBlocks epoch_id st l1 = .ok st') :
    processBlocks epoch_id st (l1 ++ l2) = processBlocks epoch_id st' l2 := by
  rw [processBlocks_append, h]

/-- C5 counterexample: main::BlockSignature::decode rejects the unrecognized
discriminant 7 with UnparsedValues as its root cause, not InvalidSumtype(7)
as the claim requires of every sum-type decoder. -/
theorem C5_counterexample_blocksignature_unparsed :
    (main.BlockSignature.decode (.Array [.U64 7])).rootOf = some .UnparsedValues ∧
    (main.BlockSignature.decode (.Array [.U64 7])).rootOf ≠ some (.InvalidSumtype 7) := by
  exact ⟨by decide, by decide⟩

/-- C5 amended: for the sum-type decoders blockchain::Block,
blockchain::BlockHeader, BlockHeaderResponse and SscProof, decoding an array
whose leading unsigned-integer discriminant is not one of the recognized
codes fails with InvalidSumtype carrying that discriminant as root cause;
main::BlockSignature alone deviates, failing with UnparsedValues instead. -/
theorem C5_sumtype_rejection (code : Nat) (rest : List Value) (hc : code < 2 ^ 64) :
    (code ≠ 0 → code ≠ 1 →
      (blockchain.Block.decode (.Array (.U64 code :: rest))).rootOf =
        some (.InvalidSumtype code)) ∧
    (code ≠ 0 → code ≠ 1 →
      (blockchain.BlockHeader.decode (.Array (.U64 code :: rest))).rootOf =
        some (.InvalidSumtype code)) ∧
    (code ≠ 0 →
      (packet.BlockHeaderResponse.decode (.Array (.U64 code :: rest))).rootOf =
        some (.InvalidSumtype code)) ∧
    (code ≠ 0 → code ≠ 1 → code ≠ 2 → code ≠ 3 →
      (SscProof.decode (.Array (.U64 code :: rest))).rootOf =
        some (.InvalidSumtype code)) ∧
    (code ≠ 0 → code ≠ 1 → code ≠ 2 →
      (main.BlockSignature.decode (.Array (.U64 code :: rest))).rootOf =
        some .UnparsedValues) := by
  have hc' := decodeU64_U64 code hc
  refine ⟨?_, ?_, ?_, ?_, ?_⟩
  · intro h0 h1
    simp [blockchain.Block.decode, Value.array, hc', h0, h1]
  · intro h0 h1
    simp [blockchain.BlockHeader.decode, Value.array, hc', h0, h1]
  · intro h0
    simp [packet.BlockHeaderResponse.decode, Value.array, hc', h0]
  · intro h0 h1 h2 h3
    simp [SscProof.decode, Value.array, hc', h0, h1, h2, h3]
  · intro h0 h1 h2
    simp [main.BlockSignature.decode, Value.array, hc', h0, h1, h2]

/-- C5 witness: the theorem instantiated at discriminant 9. -/
theorem C5_sumtype_rejection_witness :
    (blockchain.Block.decode (.Array [.U64 9])).rootOf = some (.InvalidSumtype 9) ∧
    (main.BlockSignature.decode (.Array [.U64 9])).rootOf = some .UnparsedValues :=
  ⟨(C5_sumtype_rejection 9 [] (by norm_num)).1 (by decide) (by decide),
   (C5_sumtype_rejection 9 [] (by norm_num)).2.2.2.2 (by decide) (by decide) (by decide)⟩

/-- C2 counterexample: on the batch with slot epochs [5,5,6,6,6] and target
epoch 5, download_epoch's scan yields start = 0 and end = 4 and records no
epoch boundary (start is not positive), refuting the claimed end = 1 and
boundary = hash of the header at index 1. -/
theorem C2_counterexample_scan_example :
    scanBatch exampleBatch 5 none = (0, 4, none) ∧
    (scanBatch exampleBatch 5 none).2.1 ≠ 1 ∧
    (scanBatch exampleBatch 5 none).2.2 ≠ some (exampleBatch.getD 1 default).hash := by
  exact ⟨by decide, by decide, by decide⟩

/-- C2 amended: the front scan stops at the first index whose epoch is at
most the target (it skips only while the epoch exceeds the target), the back
scan trims end while the epoch is less than the target without crossing
start, a boundary is recorded exactly when start > 0 as the hash of the
header at index start - 1 (otherwise the incoming boundary value is kept),
and on the example batch [5,5,6,6,6] with target 5 the scan yields
start = 0, end = 4 and no recorded boundary. -/
theorem C2_batch_scan (hdrs : List Hdr) (epoch_id : Nat) (found0 : Option HeaderHash) :
    (∀ j, j < (scanBatch hdrs epoch_id found0).1 →
      epoch_id < (hdrs.getD j default).epoch) ∧
    ((scanBatch hdrs epoch_id found0).1 ≤ hdrs.length - 1 →
      (hdrs.getD (scanBatch hdrs epoch_id found0).1 default).epoch ≤ epoch_id) ∧
    ((scanBatch hdrs epoch_id found0).1 ≤ hdrs.length - 1 →
      (scanBatch hdrs epoch_id found0).1 ≤ (scanBatch hdrs epoch_id found0).2.1 ∧
      (scanBatch hdrs epoch_id found0).2.1 ≤ hdrs.length - 1 ∧
      (∀ j, (scanBatch hdrs epoch_id found0).2.1 < j → j ≤ hdrs.length - 1 →
        (hdrs.getD j default).epoch < epoch_id) ∧
      ((scanBatch hdrs epoch_id found0).1 < (scanBatch hdrs epoch_id found0).2.1 →
        epoch_id ≤ (hdrs.getD (scanBatch hdrs epoch_id found0).2.1 default).epoch)) ∧
    ((scanBatch hdrs epoch_id found0).2.2 =
      if 0 < (scanBatch hdrs epoch_id found0).1
      then some (hdrs.getD ((scanBatch hdrs epoch_id found0).1 - 1) default).hash
      else found0) ∧
    scanBatch exampleBatch 5 none = (0, 4, none) := by
  have hF : (scanBatch hdrs epoch_id found0).1 =
      frontScanGo hdrs epoch_id (hdrs.length - 1 + 1) 0 := rfl
  have hB : (scanBatch hdrs epoch_id found0).2.1 =
      backScanGo hdrs epoch_id (hdrs.length - 1 - (scanBatch hdrs epoch_id found0).1)
        (hdrs.length - 1) := rfl
  obtain ⟨f1, f2, f3, f4⟩ := frontScanGo_spec hdrs epoch_id (hdrs.length - 1 + 1) 0
  refine ⟨?_, ?_, ?_, rfl, by decide⟩
  · intro j hj
    rw [hF] at hj
    exact f3 j (Nat.zero_le j) hj
  · intro hle
    rw [hF] at hle ⊢
    exact f4 (by omega)
  · intro hle
    obtain ⟨b1, b2, b3, b4⟩ := backScanGo_spec hdrs epoch_id
      (hdrs.length - 1 - (scanBatch hdrs epoch_id found0).1) (hdrs.length - 1) (by omega)
    rw [← hB] at b1 b2 b3 b4
    refine ⟨by omega, b2, b3, ?_⟩
    intro hlt
    exact b4 (by omega)

/-- C2 witness: the theorem instantiated on the example batch — the front
scan stops at an index (0) whose epoch is at most the target and the window
is well formed. -/
theorem C2_batch_scan_witness :
    (exampleBatch.getD (scanBatch exampleBatch 5 none).1 default).epoch ≤ 5 ∧
    (scanBatch exampleBatch 5 none).1 ≤ (scanBatch exampleBatch 5 none).2.1 :=
  ⟨(C2_batch_scan exampleBatch 5 none).2.1 (by decide),
   ((C2_batch_scan exampleBatch 5 none).2.2.1 (by decide)).1⟩

/-- C9 counterexample: a non-empty header batch (one header of epoch 6
against target epoch 5) drives the front scan to the batch length and
download_epoch panics indexing block_headers[start], refuting the claim that
for every non-empty batch the indexing at start and end stays in bounds. -/
theorem C9_counterexample_nonempty_batch_oob :
    (netAllLater.getHeaders ⟨[0]⟩ ⟨[9]⟩).length = 1 ∧
    download_epoch netAllLater 1 5 ⟨[0]⟩ ⟨[9]⟩ = .panic .indexOOB [] := by
  exact ⟨rfl, by decide⟩

/-- C9 amended: download_epoch panics on an empty header batch (the
len() - 1 underflow and block_headers[0] indexing) instead of returning an
error or retrying; for a non-empty batch containing some header of epoch at
most the target, the subsequent indexing at start and end stays in bounds
(start ≤ end < length); but when every header's epoch exceeds the target,
the front scan reaches the batch length and download_epoch panics out of
bounds at block_headers[start]. -/
theorem C9_empty_batch_and_bounds (net : Net) (epoch_id : Nat)
    (latest : HeaderHash) (fuel : Nat) (st : EpochState) :
    (net.getHeaders st.start_hash latest = [] →
      download_epoch_loop net epoch_id latest (fuel + 1) st =
        .panic .emptyHeaders st.writer) ∧
    (∀ (hdrs : List Hdr) (found0 : Option HeaderHash), hdrs ≠ [] →
      (∃ i < hdrs.length, (hdrs.getD i default).epoch ≤ epoch_id) →
      (scanBatch hdrs epoch_id found0).1 ≤ (scanBatch hdrs epoch_id found0).2.1 ∧
      (scanBatch hdrs epoch_id found0).2.1 < hdrs.length) ∧
    (∀ hdrs : List Hdr, net.getHeaders st.start_hash latest = hdrs → hdrs ≠ [] →
      (∀ i < hdrs.length, epoch_id < (hdrs.getD i default).epoch) →
      download_epoch_loop net epoch_id latest (fuel + 1) st =
        .panic .indexOOB st.writer) := by
  refine ⟨?_, ?_, ?_⟩
  · intro hempty
    simp [download_epoch_loop, hempty]
  · intro hdrs found0 hne hex
    have hlen : 0 < hdrs.length := List.length_pos.mpr hne
    have hF : (scanBatch hdrs epoch_id found0).1 =
        frontScanGo hdrs epoch_id (hdrs.length - 1 + 1) 0 := rfl
    have hB : (scanBatch hdrs epoch_id found0).2.1 =
        backScanGo hdrs epoch_id (hdrs.length - 1 - (scanBatch hdrs epoch_id found0).1)
          (hdrs.length - 1) := rfl
    obtain ⟨f1, f2, f3, f4⟩ := frontScanGo_spec hdrs epoch_id (hdrs.length - 1 + 1) 0
    rw [← hF] at f1 f2 f3 f4
    have hstart : (scanBatch hdrs epoch_id found0).1 ≤ hdrs.length - 1 := by
      by_contra hcon
      push_neg at hcon
      obtain ⟨i, hilen, hile⟩ := hex
      exact absurd (f3 i (Nat.zero_le i) (by omega)) (by omega)
    obtain ⟨b1, b2, b3, b4⟩ := backScanGo_spec hdrs epoch_id
      (hdrs.length - 1 - (scanBatch hdrs epoch_id found0).1) (hdrs.length - 1) (by omega)
    rw [← hB] at b1 b2 b3 b4
    exact ⟨by omega, by omega⟩
  · intro hdrs hh hne hall
    have hlen : 0 < hdrs.length := List.length_pos.mpr hne
    have hempty : hdrs.isEmpty = false := by
      cases hdrs with
      | nil => exact absurd rfl hne
      | cons a l => rfl
    have hF : (scanBatch hdrs epoch_id st.found_epoch_boundary).1 =
        frontScanGo hdrs epoch_id (hdrs.length - 1 + 1) 0 := rfl
    obtain ⟨f1, f2, f3, f4⟩ := frontScanGo_spec hdrs epoch_id (hdrs.length - 1 + 1) 0
    rw [← hF] at f1 f2 f3 f4
    have hge : hdrs.length ≤ (scanBatch hdrs epoch_id st.found_epoch_boundary).1 := by
      by_contra hcon
      push_neg at hcon
      have h4 := f4 (by omega)
      have h5 := hall _ hcon
      omega
    have hskip : ¬ (hdrs.getD 0 default).epoch < epoch_id := by
      have := hall 0 hlen
      omega
    simp only [download_epoch_loop, hh]
    rw [if_neg (by simp [hempty]), if_neg hskip]
    exact if_pos hge

/-- C9 witness: an empty batch panics emptyHeaders; a batch whose single
header has epoch 6 against target 5 panics indexOOB. -/
theorem C9_empty_batch_and_bounds_witness :
    download_epoch_loop netEmpty 5 ⟨[9]⟩ 1 ⟨⟨[0]⟩, none, [], ⟨[0]⟩, 0⟩ =
      .panic .emptyHeaders [] ∧
    download_epoch_loop netAllLater 5 ⟨[9]⟩ 1 ⟨⟨[0]⟩, none, [], ⟨[0]⟩, 0⟩ =
      .panic .indexOOB [] :=
  ⟨(C9_empty_batch_and_bounds netEmpty 5 ⟨[9]⟩ 0 ⟨⟨[0]⟩, none, [], ⟨[0]⟩, 0⟩).1 rfl,
   (C9_empty_batch_and_bounds netAllLater 5 ⟨[9]⟩ 0 ⟨⟨[0]⟩, none, [], ⟨[0]⟩, 0⟩).2.2
     [⟨6, 0, ⟨[0]⟩, ⟨[1]⟩⟩] rfl (by decide) (by decide)⟩

/-- C1: chain-continuity violations in download_epoch are fatal: when the
earliest kept header of a batch (index end) does not chain onto the running
previous_headerhash, the loop panics with the pack writer untouched; when a
fetched block has a slot epoch different from the target, or fails to chain
onto the running previous_headerhash, the block loop aborts at that block
and the offending block (and everything after it) is never appended — the
writer holds exactly the hashes of the blocks accepted before it; and any
block-loop abort makes download_epoch panic rather than return normally. -/
theorem C1_continuity_violations_fatal (net : Net) (epoch_id : Nat)
    (latest : HeaderHash) (fuel : Nat) (st : EpochState) :
    (∀ hdrs : List Hdr, net.getHeaders st.start_hash latest = hdrs → hdrs ≠ [] →
      ¬ (hdrs.getD 0 default).epoch < epoch_id →
      (scanBatch hdrs epoch_id st.found_epoch_boundary).1 < hdrs.length →
      (hdrs.getD (scanBatch hdrs epoch_id st.found_epoch_boundary).2.1 default).prev ≠
        st.previous_headerhash →
      download_epoch_loop net epoch_id latest (fuel + 1) st =
        .panic .prevMismatchHeader st.writer) ∧
    (∀ (st0 st' : BState) (pre : List Hdr) (b : Hdr) (post : List Hdr),
      processBlocks epoch_id st0 pre = .ok st' → b.epoch ≠ epoch_id →
      processBlocks epoch_id st0 (pre ++ b :: post) = .error (.blockEpochMismatch, st') ∧
      st'.writer = st0.writer ++ pre.map Hdr.hash) ∧
    (∀ (st0 st' : BState) (pre : List Hdr) (b : Hdr) (post : List Hdr),
      processBlocks epoch_id st0 pre = .ok st' → b.epoch = epoch_id →
      st'.previous_headerhash ≠ b.prev →
      processBlocks epoch_id st0 (pre ++ b :: post) = .error (.prevMismatchBlock, st') ∧
      st'.writer = st0.writer ++ pre.map Hdr.hash) ∧
    (∀ (hdrs : List Hdr) (r : PanicReason) (bst : BState),
      net.getHeaders st.start_hash latest = hdrs → hdrs ≠ [] →
      ¬ (hdrs.getD 0 default).epoch < epoch_id →
      (scanBatch hdrs epoch_id st.found_epoch_boundary).1 < hdrs.length →
      (hdrs.getD (scanBatch hdrs epoch_id st.found_epoch_boundary).2.1 default).prev =
        st.previous_headerhash →
      processBlocks epoch_id ⟨st.writer, st.previous_headerhash, st.expected_slotid⟩
        (net.getBlocks
          (hdrs.getD (scanBatch hdrs epoch_id st.found_epoch_boundary).2.1 default).hash
          (hdrs.getD (scanBatch hdrs epoch_id st.found_epoch_boundary).1 default).hash) =
        .error (r, bst) →
      download_epoch_loop net epoch_id latest (fuel + 1) st = .panic r bst.writer) := by
  refine ⟨?_, ?_, ?_, ?_⟩
  · intro hdrs hh hne hskip hlt hprev
    have hempty : hdrs.isEmpty = false := by
      cases hdrs with
      | nil => exact absurd rfl hne
      | cons a l => rfl
    simp only [download_epoch_loop, hh]
    rw [if_neg (by simp [hempty]), if_neg hskip, if_neg (by omega)]
    exact if_pos hprev
  · intro st0 st' pre b post hpre hb
    refine ⟨?_, processBlocks_ok_writer epoch_id st0 st' pre hpre⟩
    rw [processBlocks_append_ok epoch_id st0 st' pre (b :: post) hpre,
        processBlocks, if_pos hb]
  · intro st0 st' pre b post hpre hb hchain
    refine ⟨?_, processBlocks_ok_writer epoch_id st0 st' pre hpre⟩
    rw [processBlocks_append_ok epoch_id st0 st' pre (b :: post) hpre,
        processBlocks, if_neg (by simp [hb]), if_pos hchain]
  · intro hdrs r bst hh hne hskip hlt hprev hproc
    have hempty : hdrs.isEmpty = false := by
      cases hdrs with
      | nil => exact absurd rfl hne
      | cons a l => rfl
    simp only [download_epoch_loop, hh]
    rw [if_neg (by simp [hempty]), if_neg hskip, if_neg (by omega),
        if_neg (by simp only [ne_eq, not_not]; exact hprev), hproc]

/-- C1 witness: a header that does not chain onto the start hash panics the
loop with an empty writer, and a block of epoch 6 arriving in an epoch-5
download aborts the block loop with only the prior block appended. -/
theorem C1_continuity_violations_fatal_witness :
    download_epoch_loop netBadPrev 5 ⟨[9]⟩ 1 ⟨⟨[0]⟩, none, [], ⟨[0]⟩, 0⟩ =
      .panic .prevMismatchHeader [] ∧
    processBlocks 5 ⟨[], ⟨[0]⟩, 0⟩ [⟨5, 0, ⟨[0]⟩, ⟨[1]⟩⟩, ⟨6, 1, ⟨[1]⟩, ⟨[2]⟩⟩] =
      .error (.blockEpochMismatch, ⟨[⟨[1]⟩], ⟨[1]⟩, 1⟩) :=
  ⟨(C1_continuity_violations_fatal netBadPrev 5 ⟨[9]⟩ 0 ⟨⟨[0]⟩, none, [], ⟨[0]⟩, 0⟩).1
     [⟨5, 0, ⟨[7]⟩, ⟨[1]⟩⟩] rfl (by decide) (by decide) (by decide) (by decide),
   ((C1_continuity_violations_fatal netBadPrev 5 ⟨[9]⟩ 0 ⟨⟨[0]⟩, none, [], ⟨[0]⟩, 0⟩).2.1
     ⟨[], ⟨[0]⟩, 0⟩ ⟨[⟨[1]⟩], ⟨[1]⟩, 1⟩ [⟨5, 0, ⟨[0]⟩, ⟨[1]⟩⟩] ⟨6, 1, ⟨[1]⟩, ⟨[2]⟩⟩ []
     rfl (by decide)).1⟩

/-- C8 counterexample: blockchain::BlockHeader::encode calls the inner header
encoders, which are unimplemented in the source (Rust panics); at this
concrete genesis header, encode produces no value at all, so
decode(encode x) = x fails for the BlockHeader sum type included in the
claim. -/
theorem C8_counterexample_blockheader_encode :
    blockchain.BlockHeader.encode (.GenesisBlockHeader gHeader0) = none ∧
    ¬ ∃ v : Value, blockchain.BlockHeader.encode (.GenesisBlockHeader gHeader0) = some v ∧
        blockchain.BlockHeader.decode v = .ok (.GenesisBlockHeader gHeader0) := by
  refine ⟨rfl, ?_⟩
  rintro ⟨v, hv, -⟩
  simp [blockchain.BlockHeader.encode, genesis.BlockHeader.encode] at hv

/-- C8 amended: decode(encode x) = x holds for Version, BlockVersion,
SoftwareVersion, HeaderHash (on its 32-byte values) and
BlockHeaderAttributes; the BlockHeader sum type frames its variants under
discriminants 0 and 1, but its encode panics on every value because both
inner header encoders are unimplemented, so its round trip cannot hold. -/
theorem C8_roundtrip :
    (∀ v : Version, v.major < 2 ^ 32 → v.minor < 2 ^ 32 → v.revision < 2 ^ 32 →
      Version.decode (Version.encode v) = .ok v) ∧
    (∀ v : BlockVersion, v.major < 2 ^ 16 → v.minor < 2 ^ 16 → v.revision < 2 ^ 8 →
      BlockVersion.decode (BlockVersion.encode v) = .ok v) ∧
    (∀ v : SoftwareVersion, v.application_version < 2 ^ 32 →
      SoftwareVersion.decode (SoftwareVersion.encode v) = .ok v) ∧
    (∀ h : HeaderHash, h.data.length = 32 →
      HeaderHash.decode (HeaderHash.encode h) = .ok h) ∧
    (∀ a : BlockHeaderAttributes,
      BlockHeaderAttributes.decode (BlockHeaderAttributes.encode a) = .ok a) ∧
    (∀ bh : blockchain.BlockHeader, blockchain.BlockHeader.encode bh = none) := by
  refine ⟨?_, ?_, ?_, ?_, ?_, ?_⟩
  · rintro ⟨a, b, c⟩ ha hb hc
    simp [Version.encode, Version.decode, Value.array, decodeU32_U64 a ha,
      decodeU32_U64 b hb, decodeU32_U64 c hc, Version.new]
  · rintro ⟨a, b, c⟩ ha hb hc
    simp [BlockVersion.encode, BlockVersion.decode, Value.array, decodeU16_U64 a ha,
      decodeU16_U64 b hb, decodeU8_U64 c hc, BlockVersion.new]
  · rintro ⟨n, ver⟩ hv
    simp [SoftwareVersion.encode, SoftwareVersion.decode, Value.array, decodeText,
      decodeU32_U64 ver hv, SoftwareVersion.new]
  · rintro ⟨bs⟩ hl
    simp only [HeaderHash.data] at hl
    simp [HeaderHash.encode, HeaderHash.decode, Value.bytes, HeaderHash.from_slice,
      HASH_SIZE, hl, HeaderHash.from_bytes]
  · rintro ⟨v⟩
    rfl
  · intro bh
    cases bh with
    | GenesisBlockHeader g => rfl
    | MainBlockHeader m => rfl

/-- C8 witness: the theorem instantiated at Version 1.2.3 and a concrete
32-byte hash. -/
theorem C8_roundtrip_witness :
    Version.decode (Version.encode ⟨1, 2, 3⟩) = .ok ⟨1, 2, 3⟩ ∧
    HeaderHash.decode (HeaderHash.encode ⟨List.replicate 32 1⟩) = .ok ⟨List.replicate 32 1⟩ :=
  ⟨C8_roundtrip.1 ⟨1, 2, 3⟩ (by norm_num) (by norm_num) (by norm_num),
   C8_roundtrip.2.2.2.1 ⟨List.replicate 32 1⟩ (by decide)⟩

/-- C6 counterexample: main::Consensus::decode accepts a record with a
trailing extra element — it performs no emptiness check after its four
declared fields — returning Ok instead of failing with UnparsedValues. -/
theorem C6_counterexample_consensus_trailing :
    (main.Consensus.decode (.Array [.Array [.U64 0, .U64 0], .Bytes (List.replicate 64 0),
        .Array [.U64 7], .Array [.U64 1], .U64 9])).isOk = true ∧
    (main.Consensus.decode (.Array [.Array [.U64 0, .U64 0], .Bytes (List.replicate 64 0),
        .Array [.U64 7], .Array [.U64 1], .U64 9])).errOf ≠ some .UnparsedValues := by
  exact ⟨by decide, by decide⟩

/-- C6 amended: for the record decoders Version, BlockVersion,
SoftwareVersion, SlotId, HeaderExtraData, MainBlockHeader, Body and
BodyProof, any element remaining after the declared fields fails the decode
with UnparsedValues, and a missing field fails with a decode error naming
that field's context; main::Consensus alone performs no trailing check —
extra elements after its four fields are silently ignored — though its
missing fields still fail with the field's context. -/
theorem C6_record_strictness :
    ((∀ (v1 v2 v3 junk : Value) (x1 x2 x3 : Nat) (rest : List Value),
      decodeU32 v1 = .ok x1 → decodeU32 v2 = .ok x2 → decodeU32 v3 = .ok x3 →
      Version.decode (.Array (v1 :: v2 :: v3 :: junk :: rest)) =
        .err (.Embed "while decoding Version" .UnparsedValues)) ∧
    Version.decode (.Array []) =
      .err (.Embed "while decoding Version" (.Embed "major" .IndexNotFound)) ∧
    (∀ (v1 : Value) (x1 : Nat), decodeU32 v1 = .ok x1 →
      Version.decode (.Array [v1]) =
        .err (.Embed "while decoding Version" (.Embed "minor" .IndexNotFound))) ∧
    (∀ (v1 v2 : Value) (x1 x2 : Nat), decodeU32 v1 = .ok x1 → decodeU32 v2 = .ok x2 →
      Version.decode (.Array [v1, v2]) =
        .err (.Embed "while decoding Version" (.Embed "revision" .IndexNotFound)))) ∧
    ((∀ (v1 v2 v3 junk : Value) (x1 x2 x3 : Nat) (rest : List Value),
      decodeU16 v1 = .ok x1 → decodeU16 v2 = .ok x2 → decodeU8 v3 = .ok x3 →
      BlockVersion.decode (.Array (v1 :: v2 :: v3 :: junk :: rest)) =
        .err (.Embed "While decoding a BlockVersion" .UnparsedValues)) ∧
    BlockVersion.decode (.Array []) =
      .err (.Embed "While decoding a BlockVersion" (.Embed "major" .IndexNotFound)) ∧
    (∀ (v1 : Value) (x1 : Nat), decodeU16 v1 = .ok x1 →
      BlockVersion.decode (.Array [v1]) =
        .err (.Embed "While decoding a BlockVersion" (.Embed "minor" .IndexNotFound))) ∧
    (∀ (v1 v2 : Value) (x1 x2 : Nat), decodeU16 v1 = .ok x1 → decodeU16 v2 = .ok x2 →
      BlockVersion.decode (.Array [v1, v2]) =
        .err (.Embed "While decoding a BlockVersion" (.Embed "revision" .IndexNotFound)))) ∧
    ((∀ (v1 v2 junk : Value) (x1 : String) (x2 : Nat) (rest : List Value),
      decodeText v1 = .ok x1 → decodeU32 v2 = .ok x2 →
      SoftwareVersion.decode (.Array (v1 :: v2 :: junk :: rest)) =
        .err (.Embed "While decoding a SoftwareVersion" .UnparsedValues)) ∧
    SoftwareVersion.decode (.Array []) =
      .err (.Embed "While decoding a SoftwareVersion" (.Embed "name" .IndexNotFound)) ∧
    (∀ (v1 : Value) (x1 : String), decodeText v1 = .ok x1 →
      SoftwareVersion.decode (.Array [v1]) =
        .err (.Embed "While decoding a SoftwareVersion" (.Embed "version" .IndexNotFound)))) ∧
    ((∀ (v1 v2 junk : Value) (x1 x2 : Nat) (rest : List Value),
      decodeU32 v1 = .ok x1 → decodeU32 v2 = .ok x2 →
      main.SlotId.decode (.Array (v1 :: v2 :: junk :: rest)) =
        .err (.Embed "While decoding Slotid" .UnparsedValues)) ∧
    main.SlotId.decode (.Array []) =
      .err (.Embed "While decoding Slotid" (.Embed "epoch" .IndexNotFound)) ∧
    (∀ (v1 : Value) (x1 : Nat), decodeU32 v1 = .ok x1 →
      main.SlotId.decode (.Array [v1]) =
        .err (.Embed "While decoding Slotid" (.Embed "slotid" .IndexNotFound)))) ∧
    ((∀ (v1 v2 v3 v4 junk : Value) (x1 : BlockVersion) (x2 : SoftwareVersion)
        (x4 : TxHash) (rest : List Value),
      BlockVersion.decode v1 = .ok x1 → SoftwareVersion.decode v2 = .ok x2 →
      TxHash.decode v4 = .ok x4 →
      HeaderExtraData.decode (.Array (v1 :: v2 :: v3 :: v4 :: junk :: rest)) =
        .err (.Embed "While decoding a HeaderExtraData" .UnparsedValues)) ∧
    HeaderExtraData.decode (.Array []) =
      .err (.Embed "While decoding a HeaderExtraData" (.Embed "block version" .IndexNotFound)) ∧
    (∀ (v1 : Value) (x1 : BlockVersion), BlockVersion.decode v1 = .ok x1 →
      HeaderExtraData.decode (.Array [v1]) =
        .err (.Embed "While decoding a HeaderExtraData" (.Embed "software version" .IndexNotFound))) ∧
    (∀ (v1 v2 : Value) (x1 : BlockVersion) (x2 : SoftwareVersion),
      BlockVersion.decode v1 = .ok x1 → SoftwareVersion.decode v2 = .ok x2 →
      HeaderExtraData.decode (.Array [v1, v2]) =
        .err (.Embed "While decoding a HeaderExtraData" (.Embed "attributes" .IndexNotFound))) ∧
    (∀ (v1 v2 v3 : Value) (x1 : BlockVersion) (x2 : SoftwareVersion),
      BlockVersion.decode v1 = .ok x1 → SoftwareVersion.decode v2 = .ok x2 →
      HeaderExtraData.decode (.Array [v1, v2, v3]) =
        .err (.Embed "While decoding a HeaderExtraData" (.Embed "extra data proof" .IndexNotFound)))) ∧
    ((∀ (v1 v2 v3 v4 v5 junk : Value) (x1 : Nat) (x2 : HeaderHash) (x3 : BodyProof)
        (x4 : main.Consensus) (x5 : HeaderExtraData) (rest : List Value),
      ProtocolMagic.decode v1 = .ok x1 → HeaderHash.decode v2 = .ok x2 →
      BodyProof.decode v3 = .ok x3 → main.Consensus.decode v4 = .ok x4 →
      HeaderExtraData.decode v5 = .ok x5 →
      MainBlockHeader.decode (.Array (v1 :: v2 :: v3 :: v4 :: v5 :: junk :: rest)) =
        .err (.Embed "While decoding a MainBlockHeader" .UnparsedValues)) ∧
    MainBlockHeader.decode (.Array []) =
      .err (.Embed "While decoding a MainBlockHeader" (.Embed "protocol magic" .IndexNotFound)) ∧
    (∀ (v1 : Value) (x1 : Nat), ProtocolMagic.decode v1 = .ok x1 →
      MainBlockHeader.decode (.Array [v1]) =
        .err (.Embed "While decoding a MainBlockHeader" (.Embed "Previous Header Hash" .IndexNotFound))) ∧
    (∀ (v1 v2 : Value) (x1 : Nat) (x2 : HeaderHash),
      ProtocolMagic.decode v1 = .ok x1 → HeaderHash.decode v2 = .ok x2 →
      MainBlockHeader.decode (.Array [v1, v2]) =
        .err (.Embed "While decoding a MainBlockHeader" (.Embed "body proof" .IndexNotFound))) ∧
    (∀ (v1 v2 v3 : Value) (x1 : Nat) (x2 : HeaderHash) (x3 : BodyProof),
      ProtocolMagic.decode v1 = .ok x1 → HeaderHash.decode v2 = .ok x2 →
      BodyProof.decode v3 = .ok x3 →
      MainBlockHeader.decode (.Array [v1, v2, v3]) =
        .err (.Embed "While decoding a MainBlockHeader" (.Embed "consensus" .IndexNotFound))) ∧
    (∀ (v1 v2 v3 v4 : Value) (x1 : Nat) (x2 : HeaderHash) (x3 : BodyProof)
        (x4 : main.Consensus),
      ProtocolMagic.decode v1 = .ok x1 → HeaderHash.decode v2 = .ok x2 →
      BodyProof.decode v3 = .ok x3 → main.Consensus.decode v4 = .ok x4 →
      MainBlockHeader.decode (.Array [v1, v2, v3, v4]) =
        .err (.Embed "While decoding a MainBlockHeader" (.Embed "extra_data" .IndexNotFound)))) ∧
    ((∀ (v1 v2 v3 v4 junk : Value) (x1 : main.TxPayload) (rest : List Value),
      main.TxPayload.decode v1 = .ok x1 →
      main.Body.decode (.Array (v1 :: v2 :: v3 :: v4 :: junk :: rest)) =
        .err (.Embed "While decoding Body" .UnparsedValues)) ∧
    main.Body.decode (.Array []) =
      .err (.Embed "While decoding Body" (.Embed "tx" .IndexNotFound)) ∧
    (∀ (v1 : Value) (x1 : main.TxPayload), main.TxPayload.decode v1 = .ok x1 →
      main.Body.decode (.Array [v1]) =
        .err (.Embed "While decoding Body" (.Embed "scc" .IndexNotFound))) ∧
    (∀ (v1 v2 : Value) (x1 : main.TxPayload), main.TxPayload.decode v1 = .ok x1 →
      main.Body.decode (.Array [v1, v2]) =
        .err (.Embed "While decoding Body" (.Embed "dlg" .IndexNotFound))) ∧
    (∀ (v1 v2 v3 : Value) (x1 : main.TxPayload), main.TxPayload.decode v1 = .ok x1 →
      main.Body.decode (.Array [v1, v2, v3]) =
        .err (.Embed "While decoding Body" (.Embed "update" .IndexNotFound)))) ∧
    ((∀ (v1 v2 v3 v4 junk : Value) (x1 : TxProof) (x2 : SscProof) (x3 x4 : TxHash)
        (rest : List Value),
      TxProof.decode v1 = .ok x1 → SscProof.decode v2 = .ok x2 →
      TxHash.decode v3 = .ok x3 → TxHash.decode v4 = .ok x4 →
      BodyProof.decode (.Array (v1 :: v2 :: v3 :: v4 :: junk :: rest)) =
        .err (.Embed "While decoding BodyProof" .UnparsedValues)) ∧
    BodyProof.decode (.Array []) =
      .err (.Embed "While decoding BodyProof" (.Embed "tx" .IndexNotFound)) ∧
    (∀ (v1 : Value) (x1 : TxProof), TxProof.decode v1 = .ok x1 →
      BodyProof.decode (.Array [v1]) =
        .err (.Embed "While decoding BodyProof" (.Embed "mpc" .IndexNotFound))) ∧
    (∀ (v1 v2 : Value) (x1 : TxProof) (x2 : SscProof),
      TxProof.decode v1 = .ok x1 → SscProof.decode v2 = .ok x2 →
      BodyProof.decode (.Array [v1, v2]) =
        .err (.Embed "While decoding BodyProof" (.Embed "proxy_sk" .IndexNotFound))) ∧
    (∀ (v1 v2 v3 : Value) (x1 : TxProof) (x2 : SscProof) (x3 : TxHash),
      TxProof.decode v1 = .ok x1 → SscProof.decode v2 = .ok x2 → TxHash.decode v3 = .ok x3 →
      BodyProof.decode (.Array [v1, v2, v3]) =
        .err (.Embed "While decoding BodyProof" (.Embed "update" .IndexNotFound)))) ∧
    ((∀ (slotV keyV diffV sigV : Value) (s : main.SlotId) (k : hdwallet.XPub)
        (g : main.BlockSignature) (d : Nat) (ds : List Nat) (rest : List Value),
      main.SlotId.decode slotV = .ok s → hdwallet.XPub.decode keyV = .ok k →
      decodeVec decodeU64 diffV = .ok (d :: ds) → main.BlockSignature.decode sigV = .ok g →
      main.Consensus.decode (.Array (slotV :: keyV :: diffV :: sigV :: rest)) =
        .ok (main.Consensus.mk s k d g)) ∧
    main.Consensus.decode (.Array []) =
      .err (.Embed "While decoding main::Consensus" (.Embed "slotid code" .IndexNotFound)) ∧
    (∀ (slotV : Value) (s : main.SlotId), main.SlotId.decode slotV = .ok s →
      main.Consensus.decode (.Array [slotV]) =
        .err (.Embed "While decoding main::Consensus" (.Embed "leader key" .IndexNotFound))) ∧
    (∀ (slotV keyV : Value) (s : main.SlotId) (k : hdwallet.XPub),
      main.SlotId.decode slotV = .ok s → hdwallet.XPub.decode keyV = .ok k →
      main.Consensus.decode (.Array [slotV, keyV]) =
        .err (.Embed "While decoding main::Consensus" (.Embed "chain difficulty" .IndexNotFound))) ∧
    (∀ (slotV keyV diffV : Value) (s : main.SlotId) (k : hdwallet.XPub) (l : List Nat),
      main.SlotId.decode slotV = .ok s → hdwallet.XPub.decode keyV = .ok k →
      decodeVec decodeU64 diffV = .ok l →
      main.Consensus.decode (.Array [slotV, keyV, diffV]) =
        .err (.Embed "While decoding main::Consensus" (.Embed "block signature" .IndexNotFound)))) := by
  refine ⟨⟨?_, rfl, ?_, ?_⟩, ⟨?_, rfl, ?_, ?_⟩, ⟨?_, rfl, ?_⟩, ⟨?_, rfl, ?_⟩,
    ⟨?_, rfl, ?_, ?_, ?_⟩, ⟨?_, rfl, ?_, ?_, ?_, ?_⟩, ⟨?_, rfl, ?_, ?_, ?_⟩,
    ⟨?_, rfl, ?_, ?_, ?_⟩, ⟨?_, rfl, ?_, ?_, ?_⟩⟩
  · intro v1 v2 v3 junk x1 x2 x3 rest h1 h2 h3
    simp [Version.decode, Value.array, h1, h2, h3]
  · intro v1 x1 h1
    simp [Version.decode, Value.array, h1]
  · intro v1 v2 x1 x2 h1 h2
    simp [Version.decode, Value.array, h1, h2]
  · intro v1 v2 v3 junk x1 x2 x3 rest h1 h2 h3
    simp [BlockVersion.decode, Value.array, h1, h2, h3]
  · intro v1 x1 h1
    simp [BlockVersion.decode, Value.array, h1]
  · intro v1 v2 x1 x2 h1 h2
    simp [BlockVersion.decode, Value.array, h1, h2]
  · intro v1 v2 junk x1 x2 rest h1 h2
    simp [SoftwareVersion.decode, Value.array, h1, h2]
  · intro v1 x1 h1
    simp [SoftwareVersion.decode, Value.array, h1]
  · intro v1 v2 junk x1 x2 rest h1 h2
    simp [main.SlotId.decode, Value.array, h1, h2]
  · intro v1 x1 h1
    simp [main.SlotId.decode, Value.array, h1]
  · intro v1 v2 v3 v4 junk x1 x2 x4 rest h1 h2 h4
    simp [HeaderExtraData.decode, Value.array, h1, h2, h4, BlockHeaderAttributes.decode]
  · intro v1 x1 h1
    simp [HeaderExtraData.decode, Value.array, h1]
  · intro v1 v2 x1 x2 h1 h2
    simp [HeaderExtraData.decode, Value.array, h1, h2]
  · intro v1 v2 v3 x1 x2 h1 h2
    simp [HeaderExtraData.decode, Value.array, h1, h2, BlockHeaderAttributes.decode]
  · intro v1 v2 v3 v4 v5 junk x1 x2 x3 x4 x5 rest h1 h2 h3 h4 h5
    simp [MainBlockHeader.decode, Value.array, h1, h2, h3, h4, h5]
  · intro v1 x1 h1
    simp [MainBlockHeader.decode, Value.array, h1]
  · intro v1 v2 x1 x2 h1 h2
    simp [MainBlockHeader.decode, Value.array, h1, h2]
  · intro v1 v2 v3 x1 x2 x3 h1 h2 h3
    simp [MainBlockHeader.decode, Value.array, h1, h2, h3]
  · intro v1 v2 v3 v4 x1 x2 x3 x4 h1 h2 h3 h4
    simp [MainBlockHeader.decode, Value.array, h1, h2, h3, h4]
  · intro v1 v2 v3 v4 junk x1 rest h1
    simp [main.Body.decode, Value.array, h1, decodeValue]
  · intro v1 x1 h1
    simp [main.Body.decode, Value.array, h1]
  · intro v1 v2 x1 h1
    simp [main.Body.decode, Value.array, h1, decodeValue]
  · intro v1 v2 v3 x1 h1
    simp [main.Body.decode, Value.array, h1, decodeValue]
  · intro v1 v2 v3 v4 junk x1 x2 x3 x4 rest h1 h2 h3 h4
    simp [BodyProof.decode, Value.array, h1, h2, h3, h4]
  · intro v1 x1 h1
    simp [BodyProof.decode, Value.array, h1]
  · intro v1 v2 x1 x2 h1 h2
    simp [BodyProof.decode, Value.array, h1, h2]
  · intro v1 v2 v3 x1 x2 x3 h1 h2 h3
    simp [BodyProof.decode, Value.array, h1, h2, h3]
  · intro slotV keyV diffV sigV s k g d ds rest h1 h2 h3 h4
    simp [main.Consensus.decode, Value.array, h1, h2, h3, h4]
  · intro slotV s h1
    simp [main.Consensus.decode, Value.array, h1]
  · intro slotV keyV s k h1 h2
    simp [main.Consensus.decode, Value.array, h1, h2]
  · intro slotV keyV diffV s k l h1 h2 h3
    simp [main.Consensus.decode, Value.array, h1, h2, h3]

/-- C6 witness: the theorem instantiated on a Version record with a trailing
element, a Version record missing its minor field, and a main::Consensus
record with a trailing element that is silently ignored. -/
theorem C6_record_strictness_witness :
    Version.decode (.Array [.U64 1, .U64 2, .U64 3, .U64 9]) =
      .err (.Embed "while decoding Version" .UnparsedValues) ∧
    Version.decode (.Array [.U64 1]) =
      .err (.Embed "while decoding Version" (.Embed "minor" .IndexNotFound)) ∧
    main.Consensus.decode (.Array [.Array [.U64 0, .U64 0], .Bytes (List.replicate 64 0),
        .Array [.U64 7], .Array [.U64 1], .U64 9]) =
      .ok (main.Consensus.mk ⟨0, 0⟩ ⟨List.replicate 64 0⟩ 7 (.ProxyLight [])) :=
  ⟨C6_record_strictness.1.1 (.U64 1) (.U64 2) (.U64 3) (.U64 9) 1 2 3 [] rfl rfl rfl,
   C6_record_strictness.1.2.2.1 (.U64 1) 1 rfl,
   C6_record_strictness.2.2.2.2.2.2.2.2.1 (.Array [.U64 0, .U64 0])
     (.Bytes (List.replicate 64 0)) (.Array [.U64 7]) (.Array [.U64 1])
     ⟨0, 0⟩ ⟨List.replicate 64 0⟩ (.ProxyLight []) 7 [] [.U64 9] rfl rfl rfl rfl⟩
